import Mathlib

/-!
# Verification of the Reconciliation & Matching Engine of `audit_app`

This development shallowly embeds the data model, the API client surface and
the statement-import / upload flows of the `audit_app` repository
(`apps/web/src/api/client.ts`, `apps/web/src/api/types.ts`,
`apps/web/src/pages/Upload.tsx`, `apps/web/src/pages/Dashboard.tsx`), together
with a model of the server-side Reconciliation & Matching Engine.  The engine
itself (candidate generator, matching engine, match ledger, import resolver,
audit recorder) is not part of the web sources; wherever a definition models
that missing part it is written from the specification and marked
`Modelled from the spec:` in its doc comment.  All other definitions are
translated directly from the TypeScript sources.
-/

namespace AuditApp

/-! ## Source-level data model (`apps/web/src/api/types.ts`) -/

/-- `export type TransactionType = 'expense' | 'income' | 'transfer'` (types.ts line 1). -/
inductive TransactionType where
  | expense
  | income
  | transfer
deriving DecidableEq, Repr

/-- `export type MatchStatus = 'unmatched' | 'matched' | 'discrepancy'` (types.ts line 3). -/
inductive MatchStatus where
  | unmatched
  | matched
  | discrepancy
deriving DecidableEq, Repr

/-- The `'debit' | 'credit'` direction of a parsed bank transaction
(types.ts, field `transaction_type` of `BankTransaction`). -/
inductive TxDirection where
  | debit
  | credit
deriving DecidableEq, Repr

/-- `interface BankTransaction` (types.ts lines 74-88): one parsed row of an
uploaded bank statement.  Optional TypeScript fields become `Option`;
`amount` is a decimal modelled as `ℚ`; date strings are kept as `String`. -/
structure BankTransaction where
  id : Nat
  statement_id : Nat
  date : String
  description : String
  amount : ℚ
  transaction_type : TxDirection
  reference : Option String
  matched_transaction_id : Option Nat
  match_status : MatchStatus
  match_confidence : Option ℚ
  suggested_category : Option String
  suggested_type : Option TransactionType
  created_at : String
deriving DecidableEq, Repr

/-- `interface ReconciliationStatus` (types.ts lines 90-96). -/
structure ReconciliationStatus where
  statement_id : Nat
  total : Nat
  matched : Nat
  unmatched : Nat
  discrepancies : Nat
deriving DecidableEq, Repr

/-- `interface StatementImportItem` (types.ts lines 155-164).  All fields are
required in the TypeScript declaration except `vendor?`, which is optional. -/
structure StatementImportItem where
  bank_transaction_id : Nat
  amount : ℚ
  currency : String
  category : String
  description : String
  date : String
  vendor : Option String
  type : TransactionType
deriving DecidableEq, Repr

/-- `interface StatementImportResult` (types.ts lines 170-174):
`saved` = new transactions created, `reconciled` = duplicates linked to
reconciliation. -/
structure StatementImportResult where
  saved : Nat
  reconciled : Nat
  statement_id : Nat
deriving DecidableEq, Repr

/-! ## The API client surface (`apps/web/src/api/client.ts`)

Each exported client function becomes a constructor of `ClientOp`; the tables
below record, verbatim from the source, the URL group it talks to, its HTTP
method and its declared response type.  The three operations imported by the
pages but not present in the client excerpt (`deleteBankStatement`,
`batchDeleteBankStatements`, `batchUpdateCategory`) are listed with their
URL group inferred from their domain and `none` for the unknown method and
response shape. -/

inductive ClientOp where
  | getTransactions
  | getSummary
  | createTransaction
  | updateTransaction
  | deleteTransaction
  | uploadFile
  | confirmUpload
  | uploadBatch
  | confirmBatch
  | uploadBankStatement
  | getBankStatements
  | getBankTransactions
  | importStatementTransactions
  | autoMatchOp
  | manualMatchOp
  | unmatchOp
  | getReconciliationStatus
  | exportReconciliation
  | getBankAccounts
  | createBankAccount
  | deleteBankAccount
  | exportReport
  | getAuditLog
  | deleteBankStatement
  | batchDeleteBankStatements
  | batchUpdateCategory
deriving DecidableEq, Repr

inductive HttpMethod where
  | get
  | post
  | put
  | delete
deriving DecidableEq, Repr

/-- URL path groups used by the client (`/transactions`, `/upload`,
`/bank-statements`, `/reconcile`, `/bank-accounts`, `/reports`,
`/audit-log`, `/health`). -/
inductive ApiGroup where
  | transactions
  | upload
  | bankStatements
  | reconcile
  | bankAccounts
  | reports
  | auditLog
deriving DecidableEq, Repr

/-- Declared response types of the client functions (the generic argument of
`api.get<...>` / `api.post<...>` in client.ts).  `importResult` is the shape
of `StatementImportResult`; it is listed so that theorems can speak about it
even though no client call declares it. -/
inductive RespShape where
  | transactionList
  | transaction
  | summary
  | uploadedFile
  | batchUploadResult
  | savedCount
  | bankStatement
  | bankStatementList
  | bankTransactionList
  | matchedCount
  | okFlag
  | reconciliationStatus
  | blob
  | bankAccountList
  | bankAccount
  | empty
  | auditEntryList
  | importResult
deriving DecidableEq, Repr

/-- URL group of each client operation, read off the path string in client.ts. -/
def opGroup : ClientOp → ApiGroup
  | .getTransactions => .transactions
  | .getSummary => .transactions
  | .createTransaction => .transactions
  | .updateTransaction => .transactions
  | .deleteTransaction => .transactions
  | .uploadFile => .upload
  | .confirmUpload => .upload
  | .uploadBatch => .upload
  | .confirmBatch => .upload
  | .uploadBankStatement => .bankStatements
  | .getBankStatements => .bankStatements
  | .getBankTransactions => .bankStatements
  | .importStatementTransactions => .bankStatements
  | .autoMatchOp => .reconcile
  | .manualMatchOp => .reconcile
  | .unmatchOp => .reconcile
  | .getReconciliationStatus => .reconcile
  | .exportReconciliation => .reconcile
  | .getBankAccounts => .bankAccounts
  | .createBankAccount => .bankAccounts
  | .deleteBankAccount => .bankAccounts
  | .exportReport => .reports
  | .getAuditLog => .auditLog
  | .deleteBankStatement => .bankStatements
  | .batchDeleteBankStatements => .bankStatements
  | .batchUpdateCategory => .transactions

/-- HTTP method of each client operation (`api.get` / `api.post` / `api.put` /
`api.delete` in client.ts); `none` for the three operations whose definitions
are outside the excerpt. -/
def opMethod : ClientOp → Option HttpMethod
  | .getTransactions => some .get
  | .getSummary => some .get
  | .createTransaction => some .post
  | .updateTransaction => some .put
  | .deleteTransaction => some .delete
  | .uploadFile => some .post
  | .confirmUpload => some .post
  | .uploadBatch => some .post
  | .confirmBatch => some .post
  | .uploadBankStatement => some .post
  | .getBankStatements => some .get
  | .getBankTransactions => some .get
  | .importStatementTransactions => some .post
  | .autoMatchOp => some .post
  | .manualMatchOp => some .post
  | .unmatchOp => some .delete
  | .getReconciliationStatus => some .get
  | .exportReconciliation => some .get
  | .getBankAccounts => some .get
  | .createBankAccount => some .post
  | .deleteBankAccount => some .delete
  | .exportReport => some .get
  | .getAuditLog => some .get
  | .deleteBankStatement => none
  | .batchDeleteBankStatements => none
  | .batchUpdateCategory => none

/-- Declared response shape of each client operation, read off the generic
type argument in client.ts.  In particular `importStatementTransactions` is
declared as `api.post<Transaction[]>(...)` (client.ts lines 92-93). -/
def respShape : ClientOp → Option RespShape
  | .getTransactions => some .transactionList
  | .getSummary => some .summary
  | .createTransaction => some .transaction
  | .updateTransaction => some .transaction
  | .deleteTransaction => some .okFlag
  | .uploadFile => some .uploadedFile
  | .confirmUpload => some .transaction
  | .uploadBatch => some .batchUploadResult
  | .confirmBatch => some .savedCount
  | .uploadBankStatement => some .bankStatement
  | .getBankStatements => some .bankStatementList
  | .getBankTransactions => some .bankTransactionList
  | .importStatementTransactions => some .transactionList
  | .autoMatchOp => some .matchedCount
  | .manualMatchOp => some .okFlag
  | .unmatchOp => some .okFlag
  | .getReconciliationStatus => some .reconciliationStatus
  | .exportReconciliation => some .blob
  | .getBankAccounts => some .bankAccountList
  | .createBankAccount => some .bankAccount
  | .deleteBankAccount => some .empty
  | .exportReport => some .blob
  | .getAuditLog => some .auditEntryList
  | .deleteBankStatement => none
  | .batchDeleteBankStatements => none
  | .batchUpdateCategory => none

/-- Field names of the object-shaped responses, exactly as declared in
client.ts / types.ts.  `none` for non-object or unlisted shapes. -/
def shapeFields : RespShape → Option (List String)
  | .matchedCount => some ["matched"]
  | .okFlag => some ["ok"]
  | .savedCount => some ["saved"]
  | .reconciliationStatus =>
      some ["statement_id", "total", "matched", "unmatched", "discrepancies"]
  | .importResult => some ["saved", "reconciled", "statement_id"]
  | _ => none

/-- Query parameters accepted by `getAuditLog` (client.ts lines 140-144). -/
def auditLogQueryParams : List String := ["entity_type", "entity_id", "limit"]

/-! ## The statement-import flow (`apps/web/src/pages/Upload.tsx`) -/

/-- `interface StmtRow extends BankTransaction` (Upload.tsx lines 37-44):
the editable client-side row of the statement-import table. -/
structure StmtRow extends BankTransaction where
  _key : Nat
  _selected : Bool
  _category : String
  _type : TransactionType
  _vendor : String
  _description : String
deriving DecidableEq, Repr

/-- The row initialisation performed by `handleStmtFileSelect`
(Upload.tsx lines 185-195): each parsed bank transaction becomes a `StmtRow`
that is selected, suggests type `income` for `credit` rows and `expense`
otherwise, suggests category `'Other'`, and copies the parsed description. -/
def initStmtRow (k : Nat) (tx : BankTransaction) : StmtRow :=
  { toBankTransaction := tx
    _key := k
    _selected := true
    _category := if tx.transaction_type = .credit then "Other" else "Other"
    _type := if tx.transaction_type = .credit then .income else .expense
    _vendor := ""
    _description := tx.description }

/-- The item construction in `handleStmtSave` (Upload.tsx lines 225-234).
`r._description || r.description` and `r._vendor || undefined` use JavaScript
falsiness of the empty string. -/
def mkStatementImportItem (r : StmtRow) : StatementImportItem :=
  { bank_transaction_id := r.id
    amount := r.amount
    currency := "USD"
    category := r._category
    description := if r._description = "" then r.description else r._description
    date := r.date
    vendor := if r._vendor = "" then none else some r._vendor
    type := r._type }

/-- `handleStmtSave` (Upload.tsx lines 216-244): takes the selected rows,
refuses to submit when none is selected or when a selected row has no
category, and otherwise produces the list of `StatementImportItem`s sent to
the import endpoint. -/
def handleStmtSave (rows : List StmtRow) : Option (List StatementImportItem) :=
  let selected := rows.filter (fun r => r._selected)
  if selected.isEmpty then none
  else if selected.any (fun r => r._category = "") then none
  else some (selected.map mkStatementImportItem)

/-! ## Upload error classification (`handleFileSelect`, Upload.tsx lines 95-118) -/

/-- The `uploadError` state of the Upload page:
`{ message: string; rateLimited: boolean }` (Upload.tsx line 62). -/
structure UploadError where
  message : String
  rateLimited : Bool
deriving DecidableEq, Repr

def rateLimitDefaultMsg : String := "Rate limit reached. Please wait and retry."

def providerUnavailableMsg : String :=
  "No AI provider available. Start Ollama or set GEMINI_API_KEY."

def genericUploadMsg : String := "Failed to process file. Please try again."

/-- The error classification of `handleFileSelect` (Upload.tsx lines 105-114):
HTTP 429 yields a rate-limited error (server `detail` or the rate-limit
default), HTTP 503 a provider-unavailable error (server `detail` or the
provider default), anything else the fixed generic error. -/
def classifyUploadError (status : Option Nat) (detail : Option String) : UploadError :=
  if status = some 429 then ⟨detail.getD rateLimitDefaultMsg, true⟩
  else if status = some 503 then ⟨detail.getD providerUnavailableMsg, false⟩
  else ⟨genericUploadMsg, false⟩

/-- The retry button is rendered only for rate-limited errors while the
failed file is retained (`uploadError.rateLimited && pendingFile`,
Upload.tsx line 351). -/
def retryOffered (e : UploadError) (hasPendingFile : Bool) : Bool :=
  e.rateLimited && hasPendingFile

/-! ## The Reconciliation & Matching Engine (spec §§3-4)

The server implementing the engine is not among the web sources; the
definitions in this section are modelled from the specification. -/

/-- Modelled from the spec: `RecordedTransaction` (§3) as read by the engine —
the Candidate Generator consumes `{amount, currency, date, description,
vendor}` plus the id used for tie-breaking.  Dates are modelled as day
numbers (`Int`) so that the §4.1 date-window arithmetic is expressible. -/
structure RecordedTransaction where
  id : Nat
  amount : ℚ
  date : Int
  description : String
  vendor : String
deriving DecidableEq, Repr

/-- Modelled from the spec: `BankLineItem` (§3) — id, owning statement id,
date, description, amount, match status, optional matched-transaction id and
optional confidence.  Only the three match fields are ever mutated by the
engine (§3 Lifecycle). -/
structure BankLineItem where
  id : Nat
  statement_id : Nat
  date : Int
  description : String
  amount : ℚ
  match_status : MatchStatus
  matched_transaction_id : Option Nat
  match_confidence : Option ℚ
deriving DecidableEq, Repr

/-- Modelled from the spec: a `Match` relation row
`{bank_line_item_id, recorded_transaction_id, confidence}` (§3). -/
structure MatchRow where
  bank_line_item_id : Nat
  recorded_transaction_id : Nat
  confidence : Option ℚ
deriving DecidableEq, Repr

/-- Modelled from the spec: an `AuditLogEntry` (§3) as written by the Audit
Recorder — id, entity type, entity id, action. -/
structure AuditRecord where
  id : Nat
  entity_type : String
  entity_id : Nat
  action : String
deriving DecidableEq, Repr

/-- Modelled from the spec: the mutable shared state of the engine (§5) —
the bank line items, the recorded-transaction store, the Match Ledger and
the append-only audit log (newest first), with fresh-id counters. -/
structure EngineState where
  items : List BankLineItem
  txs : List RecordedTransaction
  matchRows : List MatchRow
  audit : List AuditRecord
  nextAuditId : Nat
  nextTxId : Nat
deriving DecidableEq, Repr

/-! ### Candidate Generator scoring (spec §4.1) -/

/-- Executable maximum on `ℚ` (kernel-reducible, unlike the lattice `max`). -/
def qmax (a b : ℚ) : ℚ := if a ≤ b then b else a

/-- Executable absolute value on `ℚ`. -/
def qabs (a : ℚ) : ℚ := if a < 0 then -a else a

/-- Currency epsilon for the amount signal (§4.1, "e.g., 0.01 of unit"). -/
def amountEpsilon : ℚ := 1 / 100

/-- Date window in days (§4.1, default 3). -/
def dateWindow : ℚ := 3

/-- High threshold for a confirmed match (§4.2, default 0.85). -/
def HIGH_THRESHOLD : ℚ := 85 / 100

/-- Low threshold for a discrepancy suggestion (§4.2, default 0.5). -/
def LOW_THRESHOLD : ℚ := 1 / 2

/-- Modelled from the spec: the amount signal (§4.1) — 1 when the amounts
agree within `amountEpsilon`, otherwise a value decaying with the relative
difference, floored at 0. -/
def amountScore (a b : ℚ) : ℚ :=
  if qabs (a - b) ≤ amountEpsilon then 1
  else qmax 0 (1 - qabs (a - b) / qmax 1 (qmax (qabs a) (qabs b)))

/-- Distance in days between two dates, as a rational. -/
def dateDist (d e : Int) : ℚ := ((d - e).natAbs : ℚ)

/-- Modelled from the spec: the date-proximity signal (§4.1) — 1 at the exact
date, linearly decaying to 0 at the window boundary. -/
def dateScore (d e : Int) : ℚ := qmax 0 (1 - dateDist d e / dateWindow)

/-- One step of the tokenizer: alphanumeric characters are lowercased and
accumulated, anything else ends the current token. -/
def tokStep (c : Char) (acc : List Char × List String) : List Char × List String :=
  if c.isAlphanum then (c.toLower :: acc.1, acc.2)
  else if acc.1 = [] then acc
  else ([], String.mk acc.1 :: acc.2)

/-- Modelled from the spec: case-insensitive, punctuation-stripped
tokenisation of a description (§4.1). -/
def tokenize (s : String) : List String :=
  let r := s.data.foldr tokStep ([], [])
  if r.1 = [] then r.2 else String.mk r.1 :: r.2

/-- Modelled from the spec: normalized token overlap (§4.1) — the number of
shared distinct tokens divided by the larger distinct-token count. -/
def tokenOverlap (xs ys : List String) : ℚ :=
  let xd := xs.dedup
  let yd := ys.dedup
  ((xd.filter (fun w => yd.contains w)).length : ℚ)
    / qmax 1 (qmax (xd.length : ℚ) (yd.length : ℚ))

/-- Modelled from the spec: the text-similarity signal between the bank
description and the transaction description/vendor (§4.1). -/
def textScore (bankDescr txDescr txVendor : String) : ℚ :=
  tokenOverlap (tokenize bankDescr) (tokenize (txDescr ++ " " ++ txVendor))

/-- Modelled from the spec: the combined candidate score (§4.1) with the
documented deterministic weights — amount 0.5, date 0.3, text 0.2. -/
def score (it : BankLineItem) (t : RecordedTransaction) : ℚ :=
  (1 / 2) * amountScore it.amount t.amount
    + (3 / 10) * dateScore it.date t.date
    + (1 / 5) * textScore it.description t.description t.vendor

/-- Modelled from the spec: candidacy (§4.1) — items outside the date window
are excluded entirely, and a candidate is excluded when the amount and date
signals are both 0. -/
def admissible (it : BankLineItem) (t : RecordedTransaction) : Bool :=
  decide (dateDist it.date t.date ≤ dateWindow)
    && !(decide (amountScore it.amount t.amount = 0)
          && decide (dateScore it.date t.date = 0))

/-- A scored candidate triple: the (item, transaction) pair together with the
score and the §4.1 tie-break data (amount score, date distance). -/
structure Cand where
  itemId : Nat
  txId : Nat
  cScore : ℚ
  aScore : ℚ
  dDist : ℚ
deriving DecidableEq, Repr

/-- The candidate record for a pair. -/
def candOf (it : BankLineItem) (t : RecordedTransaction) : Cand :=
  ⟨it.id, t.id, score it t, amountScore it.amount t.amount, dateDist it.date t.date⟩

/-- Modelled from the spec: the §4.1 ordering — higher score first, ties
broken by higher amount score, then closer date, then lower transaction id
(then lower item id, for a total deterministic order across items). -/
def candBefore (a b : Cand) : Bool :=
  decide (b.cScore < a.cScore)
    || (decide (a.cScore = b.cScore)
        && (decide (b.aScore < a.aScore)
            || (decide (a.aScore = b.aScore)
                && (decide (a.dDist < b.dDist)
                    || (decide (a.dDist = b.dDist)
                        && (decide (a.txId < b.txId)
                            || (decide (a.txId = b.txId)
                                && decide (a.itemId ≤ b.itemId))))))))

def insertCand (c : Cand) : List Cand → List Cand
  | [] => [c]
  | x :: xs => if candBefore c x then c :: x :: xs else x :: insertCand c xs

/-- Deterministic insertion sort of the candidate triples by `candBefore`. -/
def sortCands : List Cand → List Cand
  | [] => []
  | x :: xs => insertCand x (sortCands xs)

/-- Modelled from the spec: all admissible candidates of one item against the
pool (§4.1). -/
def candsFor (it : BankLineItem) (pool : List RecordedTransaction) : List Cand :=
  pool.filterMap (fun t => if admissible it t then some (candOf it t) else none)

/-- All candidate triples of a statement run (§4.2): the candidates of every
unmatched work item against the free pool. -/
def genCands (work : List BankLineItem) (pool : List RecordedTransaction) : List Cand :=
  (work.map (fun i => candsFor i pool)).flatten

/-- The best candidate of a list under the §4.1 deterministic order. -/
def pickBest : List Cand → Option Cand
  | [] => none
  | c :: cs =>
    match pickBest cs with
    | none => some c
    | some b => if candBefore c b then some c else some b

/-- Modelled from the spec: the Candidate Generator's top suggestion of one
item against a pool (§4.1). -/
def bestCandFor (it : BankLineItem) (pool : List RecordedTransaction) : Option Cand :=
  pickBest (candsFor it pool)

/-! ### Audit Recorder (spec §4.5) -/

/-- Modelled from the spec: the Audit Recorder's `record` (§4.5) — prepends a
fresh entry (newest first) and never touches prior entries. -/
def record (st : EngineState) (etype : String) (eid : Nat) (action : String) :
    EngineState :=
  { st with
    audit := ⟨st.nextAuditId, etype, eid, action⟩ :: st.audit
    nextAuditId := st.nextAuditId + 1 }

/-- Modelled from the spec: the audit query (§4.5) — filter by entity type
and entity id when given, apply the result-size limit; the log is stored
newest first so the result is ordered newest first. -/
def queryAudit (st : EngineState) (etype : Option String) (eid : Option Nat)
    (limit : Nat) : List AuditRecord :=
  (st.audit.filter (fun e =>
    (match etype with | none => true | some s => decide (e.entity_type = s))
      && (match eid with | none => true | some n => decide (e.entity_id = n)))).take limit

/-! ### Match Ledger (spec §4.3) -/

/-- Errors of the §7 taxonomy used by the ledger operations. -/
inductive ApiError where
  | NotFound
  | AlreadyMatched
  | NoActiveMatch
  | ValidationError
deriving DecidableEq, Repr

/-- Does the bank line item have an active Match? -/
def itemHasMatch (st : EngineState) (i : Nat) : Bool :=
  st.matchRows.any (fun m => m.bank_line_item_id == i)

/-- Is the recorded transaction in an active Match? -/
def txHasMatch (st : EngineState) (t : Nat) : Bool :=
  st.matchRows.any (fun m => m.recorded_transaction_id == t)

/-- The one mutation ever applied to a `BankLineItem` (§3 Lifecycle): set its
match status, back-reference and confidence. -/
def setMatchFields (it : BankLineItem) (s : MatchStatus) (lnk : Option Nat)
    (cf : Option ℚ) : BankLineItem :=
  { it with match_status := s, matched_transaction_id := lnk, match_confidence := cf }

/-- Modelled from the spec: `manual_match` (§4.3) — fails with `NotFound` on
unknown ids, with `AlreadyMatched` when the bank item already has an active
Match or the transaction is already matched; on success creates a Match with
`confidence = null`, sets the item to `matched` and audit-logs a `match`. -/
def manual_match (st : EngineState) (bankItemId txId : Nat) :
    Except ApiError EngineState :=
  if ¬ st.items.any (fun it => it.id == bankItemId) then .error .NotFound
  else if ¬ st.txs.any (fun t => t.id == txId) then .error .NotFound
  else if itemHasMatch st bankItemId then .error .AlreadyMatched
  else if txHasMatch st txId then .error .AlreadyMatched
  else .ok <| record
    { st with
      matchRows := ⟨bankItemId, txId, none⟩ :: st.matchRows
      items := st.items.map (fun it =>
        if it.id = bankItemId then setMatchFields it .matched (some txId) none else it) }
    "bank_transaction" bankItemId "match"

/-- Modelled from the spec: `unmatch` (§4.3) — fails with `NoActiveMatch`
when no active Match exists; otherwise destroys the Match, resets the item to
`unmatched` with cleared back-reference and confidence, and audit-logs an
`unmatch`. -/
def unmatch (st : EngineState) (bankItemId : Nat) : Except ApiError EngineState :=
  if ¬ itemHasMatch st bankItemId then .error .NoActiveMatch
  else .ok <| record
    { st with
      matchRows := st.matchRows.filter (fun m => ¬ m.bank_line_item_id = bankItemId)
      items := st.items.map (fun it =>
        if it.id = bankItemId then setMatchFields it .unmatched none none else it) }
    "bank_transaction" bankItemId "unmatch"

/-- Modelled from the spec: `status(statement_id)` (§4.3) — total, matched,
unmatched and discrepancy counts computed fresh from the current statuses,
returned in the source `ReconciliationStatus` shape. -/
def statusOf (st : EngineState) (stmtId : Nat) : ReconciliationStatus :=
  let its := st.items.filter (fun it => it.statement_id == stmtId)
  { statement_id := stmtId
    total := its.length
    matched := (its.filter (fun it => it.match_status == .matched)).length
    unmatched := (its.filter (fun it => it.match_status == .unmatched)).length
    discrepancies := (its.filter (fun it => it.match_status == .discrepancy)).length }

/-! ### Matching Engine: auto-match (spec §4.2) -/

/-- The work list of an auto-match pass: the statement's line items that are
not confirmed matches (confirmed matches are never re-scored, §4.2). -/
def workOf (st : EngineState) (stmtId : Nat) : List BankLineItem :=
  st.items.filter (fun it =>
    it.statement_id == stmtId && !(it.match_status == MatchStatus.matched))

/-- The candidate pool: recorded transactions not currently matched to any
bank line item (§4.1). -/
def poolOf (st : EngineState) : List RecordedTransaction :=
  st.txs.filter (fun t => !txHasMatch st t.id)

/-- All candidate triples of the statement, sorted by the §4.1 order. -/
def autoCands (st : EngineState) (stmtId : Nat) : List Cand :=
  sortCands (genCands (workOf st stmtId) (poolOf st))

/-- The Match row committed for a greedily accepted candidate. -/
def matchOfCand (c : Cand) : MatchRow :=
  ⟨c.itemId, c.txId, some c.cScore⟩

/-- Modelled from the spec: the greedy global assignment (§4.2) — walk the
sorted triples, skip a triple when either side is already assigned in this
pass, and accept an assignment only when the score reaches
`HIGH_THRESHOLD`. -/
def greedyStep (acc : List MatchRow) (c : Cand) : List MatchRow :=
  if HIGH_THRESHOLD ≤ c.cScore
      ∧ ¬ acc.any (fun m => m.bank_line_item_id == c.itemId)
      ∧ ¬ acc.any (fun m => m.recorded_transaction_id == c.txId) then
    acc ++ [matchOfCand c]
  else acc

def greedyAssign (cands : List Cand) : List MatchRow :=
  cands.foldl greedyStep []

/-- The Match rows confirmed by an auto-match pass on the statement. -/
def autoAssigned (st : EngineState) (stmtId : Nat) : List MatchRow :=
  greedyAssign (autoCands st stmtId)

/-- The pool left free after the greedy pass. -/
def autoFreePool (st : EngineState) (stmtId : Nat) : List RecordedTransaction :=
  (poolOf st).filter (fun t =>
    !(autoAssigned st stmtId).any (fun m => m.recorded_transaction_id == t.id))

/-- Modelled from the spec: the per-item outcome of an auto-match pass
(§4.2).  An assigned item becomes a confirmed match; an unassigned item whose
best remaining candidate scores in `[LOW_THRESHOLD, HIGH_THRESHOLD)` becomes a
`discrepancy` carrying the suggested link and confidence (no Match row);
otherwise the item is (left) `unmatched` with cleared suggestion. -/
def applyAutoTo (assigned : List MatchRow) (freePool : List RecordedTransaction)
    (stmtId : Nat) (it : BankLineItem) : BankLineItem :=
  if it.statement_id == stmtId && !(it.match_status == MatchStatus.matched) then
    match assigned.find? (fun m => m.bank_line_item_id == it.id) with
    | some m => setMatchFields it .matched (some m.recorded_transaction_id) m.confidence
    | none =>
      match bestCandFor it freePool with
      | some c =>
        if LOW_THRESHOLD ≤ c.cScore ∧ c.cScore < HIGH_THRESHOLD then
          setMatchFields it .discrepancy (some c.txId) (some c.cScore)
        else setMatchFields it .unmatched none none
      | none => setMatchFields it .unmatched none none
  else it

/-- Audit-log every confirmed match of the pass. -/
def recordMatches (l : List MatchRow) (st : EngineState) : EngineState :=
  l.foldl (fun s m => record s "bank_transaction" m.bank_line_item_id "match") st

/-- Modelled from the spec: the state after an auto-match pass (§4.2) — the
confirmed Match rows are committed, every work item is re-resolved, and each
confirmed match is audit-logged. -/
def autoMatchState (st : EngineState) (stmtId : Nat) : EngineState :=
  recordMatches (autoAssigned st stmtId)
    { st with
      items := st.items.map (applyAutoTo (autoAssigned st stmtId) (autoFreePool st stmtId) stmtId)
      matchRows := st.matchRows ++ autoAssigned st stmtId }

/-- Modelled from the spec: auto-match (§4.2) — returns the count of newly
confirmed matches (the `{matched}` of the §6 interface) and the new state. -/
def autoMatch (st : EngineState) (stmtId : Nat) : Nat × EngineState :=
  ((autoAssigned st stmtId).length, autoMatchState st stmtId)

/-! ### Import Resolver (spec §4.4) -/

/-- Modelled from the spec: one caller-supplied import item (§4.4) as seen by
the engine — the selected bank line item id plus the caller-edited fields
(dates as day numbers, matching `RecordedTransaction`). -/
structure ImportReqItem where
  bank_transaction_id : Nat
  amount : ℚ
  date : Int
  description : String
  vendor : Option String
  category : String
  type : TransactionType
deriving DecidableEq, Repr

/-- Modelled from the spec: the creation part of one Import Resolver step
(§4.4) — a new `RecordedTransaction` is created from the supplied fields
under a fresh id, a Match with confidence 1.0 links it to the bank line
item, and the item becomes `matched`. -/
def importCreate (st : EngineState) (item : ImportReqItem) : EngineState :=
  { st with
    txs := st.txs
      ++ [⟨st.nextTxId, item.amount, item.date, item.description, item.vendor.getD ""⟩]
    nextTxId := st.nextTxId + 1
    matchRows := ⟨item.bank_transaction_id, st.nextTxId, some 1⟩ :: st.matchRows
    items := st.items.map (fun it =>
      if it.id = item.bank_transaction_id then
        setMatchFields it .matched (some st.nextTxId) (some 1)
      else it) }

/-- Modelled from the spec: one step of the Import Resolver (§4.4).  An item
that already has an active Match is a no-op counted as `reconciled`;
otherwise the creation of `importCreate` happens, is counted as `saved`, and
both the creation and the link are audit-logged. -/
def importStep (acc : (Nat × Nat) × EngineState) (item : ImportReqItem) :
    (Nat × Nat) × EngineState :=
  if itemHasMatch acc.2 item.bank_transaction_id then
    ((acc.1.1, acc.1.2 + 1), acc.2)
  else
    ((acc.1.1 + 1, acc.1.2),
      record (record (importCreate acc.2 item) "transaction" acc.2.nextTxId "create")
        "bank_transaction" item.bank_transaction_id "match")

/-- Modelled from the spec: the Import Resolver (§4.4) — fold the selected
items, reporting `{saved, reconciled, statement_id}` in the source
`StatementImportResult` shape. -/
def importItems (st : EngineState) (stmtId : Nat) (req : List ImportReqItem) :
    StatementImportResult × EngineState :=
  let r := req.foldl importStep ((0, 0), st)
  ({ saved := r.1.1, reconciled := r.1.2, statement_id := stmtId }, r.2)

/-! ### Engine invariants -/

/-- The §3 Match invariant: the active Matches form a partial bijection — no
bank line item and no recorded transaction appears in two active Matches. -/
def MatchesBijective (ms : List MatchRow) : Prop :=
  ms.Pairwise (fun a b =>
    a.bank_line_item_id ≠ b.bank_line_item_id
      ∧ a.recorded_transaction_id ≠ b.recorded_transaction_id)

/-- The ledger part of the engine invariant: the Match Ledger is a partial
bijection, every actively matched line item carries status `matched`,
line-item ids are unique, all stored confidences lie in `[0,1]`, and every
transaction id (stored or referenced) stays below the fresh-id counter. -/
def CoreInv (st : EngineState) : Prop :=
  MatchesBijective st.matchRows
    ∧ (∀ m ∈ st.matchRows, ∀ it ∈ st.items,
        it.id = m.bank_line_item_id → it.match_status = .matched)
    ∧ (st.items.map (fun it => it.id)).Nodup
    ∧ (∀ it ∈ st.items, ∀ c : ℚ, it.match_confidence = some c → 0 ≤ c ∧ c ≤ 1)
    ∧ (∀ m ∈ st.matchRows, ∀ c : ℚ, m.confidence = some c → 0 ≤ c ∧ c ≤ 1)
    ∧ (∀ t ∈ st.txs, t.id < st.nextTxId)
    ∧ (∀ m ∈ st.matchRows, m.recorded_transaction_id < st.nextTxId)

/-- The audit-log part of the invariant: entries are strictly newest-first
and all ids lie below the fresh-id counter. -/
def AuditInv (st : EngineState) : Prop :=
  st.audit.Pairwise (fun a b => b.id < a.id)
    ∧ ∀ e ∈ st.audit, e.id < st.nextAuditId

/-- The engine's full state invariant. -/
def Inv (st : EngineState) : Prop :=
  CoreInv st ∧ AuditInv st

instance (st : EngineState) : Decidable (Inv st) := by
  unfold Inv CoreInv AuditInv MatchesBijective
  infer_instance

/-! ### Concrete demonstration data (used to instantiate the theorems) -/

/-- A parsed bank transaction as delivered by the statement parser. -/
def exTx : BankTransaction :=
  { id := 5, statement_id := 1, date := "2024-03-01", description := "AMAZON MKTPLACE"
    amount := 50, transaction_type := .credit, reference := none
    matched_transaction_id := none, match_status := .unmatched
    match_confidence := none, suggested_category := none, suggested_type := none
    created_at := "2024-03-02" }

/-- A second parsed bank transaction, a debit row. -/
def exTxDebit : BankTransaction :=
  { exTx with id := 6, transaction_type := .debit, description := "UBER TRIP" }

/-- The statement-import row built from `exTx` by the upload page. -/
def exRow : StmtRow := initStmtRow 0 exTx

/-- `exRow` with its category cleared, as after the user resets the picker. -/
def exRowNoCategory : StmtRow := { exRow with _category := "" }

/-- A small engine state: two unmatched line items of statement 1 and two
free recorded transactions; transaction 1 is a perfect §4.1 match for line
item 10, while line item 11 has no candidate inside the date window. -/
def demoState : EngineState :=
  { items :=
      [ { id := 10, statement_id := 1, date := 0, description := "amazon"
          amount := 50, match_status := .unmatched
          matched_transaction_id := none, match_confidence := none }
      , { id := 11, statement_id := 1, date := 50, description := ""
          amount := 7, match_status := .unmatched
          matched_transaction_id := none, match_confidence := none } ]
    txs :=
      [ { id := 1, amount := 50, date := 0, description := "amazon", vendor := "" }
      , { id := 2, amount := 999, date := 60, description := "", vendor := "" } ]
    matchRows := []
    audit := []
    nextAuditId := 0
    nextTxId := 3 }

/-- `demoState` after manually matching line item 10 to transaction 1. -/
def demoMatched : EngineState :=
  (manual_match demoState 10 1).toOption.getD demoState

/-- A concrete import request for the free line item 11 of `demoState`. -/
def demoImportReq : List ImportReqItem :=
  [{ bank_transaction_id := 11, amount := 7, date := 50, description := "cash"
     vendor := none, category := "Other", type := .expense }]

end AuditApp

deriving instance DecidableEq for Except

namespace AuditApp

/-! ## Supporting lemmas -/

theorem foldl_importStep_counts (req : List ImportReqItem) :
    ∀ acc : (Nat × Nat) × EngineState,
      (req.foldl importStep acc).1.1 + (req.foldl importStep acc).1.2
        = acc.1.1 + acc.1.2 + req.length := by
  induction req with
  | nil => intro acc; simp
  | cons hd tl ih =>
    intro acc
    rw [List.foldl_cons, ih]
    cases hmatch : itemHasMatch acc.2 hd.bank_transaction_id <;>
      simp [importStep, hmatch] <;> omega

theorem importItems_counts (st : EngineState) (stmtId : Nat)
    (req : List ImportReqItem) :
    (importItems st stmtId req).1.saved + (importItems st stmtId req).1.reconciled
      = req.length := by
  unfold importItems
  simpa using foldl_importStep_counts req ((0, 0), st)

/-! ## Scoring bounds (spec §4.1: every signal and score lies in `[0,1]`) -/

theorem le_qmax_left (a b : ℚ) : a ≤ qmax a b := by
  unfold qmax; split
  · assumption
  · exact le_refl a

theorem le_qmax_right (a b : ℚ) : b ≤ qmax a b := by
  unfold qmax; split
  · exact le_refl b
  · exact le_of_lt (lt_of_not_le (by assumption))

theorem qmax_le_of (a b c : ℚ) (h1 : a ≤ c) (h2 : b ≤ c) : qmax a b ≤ c := by
  unfold qmax; split <;> assumption

theorem qabs_nonneg (a : ℚ) : 0 ≤ qabs a := by
  unfold qabs; split
  · linarith [lt_of_not_le (fun h => absurd (by assumption) (not_lt_of_le h))]
  · exact le_of_not_lt (by assumption)

theorem amountScore_bounds (a b : ℚ) :
    0 ≤ amountScore a b ∧ amountScore a b ≤ 1 := by
  unfold amountScore
  split
  · exact ⟨zero_le_one, le_refl 1⟩
  · constructor
    · exact le_qmax_left 0 _
    · apply qmax_le_of _ _ _ zero_le_one
      have hden : (0:ℚ) < qmax 1 (qmax (qabs a) (qabs b)) :=
        lt_of_lt_of_le zero_lt_one (le_qmax_left 1 _)
      have : 0 ≤ qabs (a - b) / qmax 1 (qmax (qabs a) (qabs b)) :=
        div_nonneg (qabs_nonneg _) (le_of_lt hden)
      linarith

theorem dateDist_nonneg (d e : Int) : 0 ≤ dateDist d e := by
  unfold dateDist
  exact_mod_cast Nat.zero_le _

theorem dateScore_bounds (d e : Int) : 0 ≤ dateScore d e ∧ dateScore d e ≤ 1 := by
  unfold dateScore
  constructor
  · exact le_qmax_left 0 _
  · apply qmax_le_of _ _ _ zero_le_one
    have h1 : 0 ≤ dateDist d e / dateWindow :=
      div_nonneg (dateDist_nonneg d e) (by unfold dateWindow; norm_num)
    linarith

theorem tokenOverlap_bounds (xs ys : List String) :
    0 ≤ tokenOverlap xs ys ∧ tokenOverlap xs ys ≤ 1 := by
  unfold tokenOverlap
  have hden : (0:ℚ) < qmax 1 (qmax (xs.dedup.length : ℚ) (ys.dedup.length : ℚ)) :=
    lt_of_lt_of_le zero_lt_one (le_qmax_left 1 _)
  constructor
  · exact div_nonneg (by exact_mod_cast Nat.zero_le _) (le_of_lt hden)
  · rw [div_le_one hden]
    calc ((xs.dedup.filter (fun w => ys.dedup.contains w)).length : ℚ)
        ≤ (xs.dedup.length : ℚ) := by
          exact_mod_cast List.length_filter_le _ _
      _ ≤ qmax (xs.dedup.length : ℚ) (ys.dedup.length : ℚ) := le_qmax_left _ _
      _ ≤ qmax 1 (qmax (xs.dedup.length : ℚ) (ys.dedup.length : ℚ)) := le_qmax_right _ _

theorem textScore_bounds (a b c : String) :
    0 ≤ textScore a b c ∧ textScore a b c ≤ 1 := by
  unfold textScore
  exact tokenOverlap_bounds _ _

theorem score_bounds (it : BankLineItem) (t : RecordedTransaction) :
    0 ≤ score it t ∧ score it t ≤ 1 := by
  unfold score
  obtain ⟨ha0, ha1⟩ := amountScore_bounds it.amount t.amount
  obtain ⟨hd0, hd1⟩ := dateScore_bounds it.date t.date
  obtain ⟨ht0, ht1⟩ := textScore_bounds it.description t.description t.vendor
  constructor <;> nlinarith

/-! ## Candidate-list membership and field-update invariance -/

theorem setMatchFields_id (it : BankLineItem) (s : MatchStatus) (lnk : Option Nat)
    (cf : Option ℚ) : (setMatchFields it s lnk cf).id = it.id := rfl

theorem setMatchFields_stmt (it : BankLineItem) (s : MatchStatus) (lnk : Option Nat)
    (cf : Option ℚ) : (setMatchFields it s lnk cf).statement_id = it.statement_id := rfl

theorem setMatchFields_status (it : BankLineItem) (s : MatchStatus) (lnk : Option Nat)
    (cf : Option ℚ) : (setMatchFields it s lnk cf).match_status = s := rfl

theorem setMatchFields_conf (it : BankLineItem) (s : MatchStatus) (lnk : Option Nat)
    (cf : Option ℚ) : (setMatchFields it s lnk cf).match_confidence = cf := rfl

theorem setMatchFields_idem (it : BankLineItem) (s : MatchStatus) (lnk : Option Nat)
    (cf : Option ℚ) :
    setMatchFields (setMatchFields it s lnk cf) s lnk cf = setMatchFields it s lnk cf := rfl

theorem score_setMatchFields (it : BankLineItem) (s : MatchStatus) (lnk : Option Nat)
    (cf : Option ℚ) (t : RecordedTransaction) :
    score (setMatchFields it s lnk cf) t = score it t := rfl

theorem admissible_setMatchFields (it : BankLineItem) (s : MatchStatus)
    (lnk : Option Nat) (cf : Option ℚ) (t : RecordedTransaction) :
    admissible (setMatchFields it s lnk cf) t = admissible it t := rfl

theorem candOf_setMatchFields (it : BankLineItem) (s : MatchStatus) (lnk : Option Nat)
    (cf : Option ℚ) (t : RecordedTransaction) :
    candOf (setMatchFields it s lnk cf) t = candOf it t := rfl

theorem candsFor_setMatchFields (it : BankLineItem) (s : MatchStatus) (lnk : Option Nat)
    (cf : Option ℚ) (pool : List RecordedTransaction) :
    candsFor (setMatchFields it s lnk cf) pool = candsFor it pool := rfl

theorem bestCandFor_setMatchFields (it : BankLineItem) (s : MatchStatus)
    (lnk : Option Nat) (cf : Option ℚ) (pool : List RecordedTransaction) :
    bestCandFor (setMatchFields it s lnk cf) pool = bestCandFor it pool := rfl

theorem mem_insertCand (a c : Cand) (l : List Cand) :
    a ∈ insertCand c l ↔ a = c ∨ a ∈ l := by
  induction l with
  | nil => simp [insertCand]
  | cons x xs ih =>
    unfold insertCand
    split
    · simp
    · simp only [List.mem_cons, ih]
      tauto

theorem mem_sortCands (a : Cand) (l : List Cand) : a ∈ sortCands l ↔ a ∈ l := by
  induction l with
  | nil => simp [sortCands]
  | cons x xs ih =>
    unfold sortCands
    rw [mem_insertCand, ih]
    simp

theorem mem_candsFor (c : Cand) (it : BankLineItem) (pool : List RecordedTransaction) :
    c ∈ candsFor it pool
      ↔ ∃ t ∈ pool, admissible it t = true ∧ c = candOf it t := by
  unfold candsFor
  rw [List.mem_filterMap]
  constructor
  · rintro ⟨t, ht, hsome⟩
    by_cases ha : admissible it t = true
    · rw [if_pos ha] at hsome
      exact ⟨t, ht, ha, (Option.some_inj.mp hsome).symm⟩
    · rw [if_neg ha] at hsome
      cases hsome
  · rintro ⟨t, ht, ha, rfl⟩
    exact ⟨t, ht, by rw [if_pos ha]⟩

theorem mem_genCands (c : Cand) (work : List BankLineItem)
    (pool : List RecordedTransaction) :
    c ∈ genCands work pool
      ↔ ∃ i ∈ work, ∃ t ∈ pool, admissible i t = true ∧ c = candOf i t := by
  unfold genCands
  rw [List.mem_flatten]
  constructor
  · rintro ⟨l, hl, hc⟩
    obtain ⟨i, hi, rfl⟩ := List.mem_map.mp hl
    obtain ⟨t, ht, ha, rfl⟩ := (mem_candsFor _ _ _).mp hc
    exact ⟨i, hi, t, ht, ha, rfl⟩
  · rintro ⟨i, hi, t, ht, ha, rfl⟩
    exact ⟨candsFor i pool, List.mem_map.mpr ⟨i, hi, rfl⟩,
      (mem_candsFor _ _ _).mpr ⟨t, ht, ha, rfl⟩⟩

theorem mem_autoCands (c : Cand) (st : EngineState) (stmtId : Nat) :
    c ∈ autoCands st stmtId
      ↔ ∃ i ∈ workOf st stmtId, ∃ t ∈ poolOf st,
          admissible i t = true ∧ c = candOf i t := by
  unfold autoCands
  rw [mem_sortCands, mem_genCands]

theorem pickBest_mem (l : List Cand) (c : Cand) (h : pickBest l = some c) : c ∈ l := by
  induction l with
  | nil => cases h
  | cons x xs ih =>
    revert h
    unfold pickBest
    cases hx : pickBest xs with
    | none =>
      intro h
      injection h with h
      simp [h]
    | some b =>
      show (if candBefore x b = true then some x else some b) = some c → c ∈ x :: xs
      split
      · intro h
        injection h with h
        simp [h]
      · intro h
        injection h with h
        exact List.mem_cons_of_mem x (ih (h ▸ hx))

theorem bestCandFor_mem (it : BankLineItem) (pool : List RecordedTransaction)
    (c : Cand) (h : bestCandFor it pool = some c) :
    ∃ t ∈ pool, admissible it t = true ∧ c = candOf it t :=
  (mem_candsFor _ _ _).mp (pickBest_mem _ _ h)

/-! ## Greedy assignment lemmas (spec §4.2) -/

theorem greedyStep_mono (acc : List MatchRow) (c : Cand) (m : MatchRow)
    (h : m ∈ acc) : m ∈ greedyStep acc c := by
  unfold greedyStep
  split
  · exact List.mem_append_left _ h
  · exact h

theorem greedyFold_mono (l : List Cand) :
    ∀ (acc : List MatchRow) (m : MatchRow), m ∈ acc → m ∈ l.foldl greedyStep acc := by
  induction l with
  | nil => intro acc m h; exact h
  | cons x xs ih =>
    intro acc m h
    exact ih (greedyStep acc x) m (greedyStep_mono acc x m h)

theorem greedyFold_src (l : List Cand) :
    ∀ (acc : List MatchRow) (m : MatchRow), m ∈ l.foldl greedyStep acc →
      m ∈ acc ∨ ∃ c ∈ l, m = matchOfCand c ∧ HIGH_THRESHOLD ≤ c.cScore := by
  induction l with
  | nil => intro acc m h; exact Or.inl h
  | cons x xs ih =>
    intro acc m h
    rcases ih (greedyStep acc x) m h with hacc | ⟨c, hc, rfl, hs⟩
    · unfold greedyStep at hacc
      by_cases hcond : HIGH_THRESHOLD ≤ x.cScore
          ∧ ¬ acc.any (fun m => m.bank_line_item_id == x.itemId) = true
          ∧ ¬ acc.any (fun m => m.recorded_transaction_id == x.txId) = true
      · rw [if_pos hcond] at hacc
        rcases List.mem_append.mp hacc with h1 | h2
        · exact Or.inl h1
        · exact Or.inr ⟨x, List.mem_cons_self x xs, by simpa using h2, hcond.1⟩
      · rw [if_neg hcond] at hacc
        exact Or.inl hacc
    · exact Or.inr ⟨c, List.mem_cons_of_mem x hc, rfl, hs⟩

theorem greedyFold_covers (l : List Cand) :
    ∀ (acc : List MatchRow) (c : Cand), c ∈ l → HIGH_THRESHOLD ≤ c.cScore →
      (∃ m ∈ l.foldl greedyStep acc, m.bank_line_item_id = c.itemId)
        ∨ (∃ m ∈ l.foldl greedyStep acc, m.recorded_transaction_id = c.txId) := by
  induction l with
  | nil => intro acc c h; cases h
  | cons x xs ih =>
    intro acc c hc hs
    rcases List.mem_cons.mp hc with rfl | htl
    · by_cases hbank : acc.any (fun m => m.bank_line_item_id == c.itemId) = true
      · obtain ⟨m, hm, hb⟩ := List.any_eq_true.mp hbank
        left
        refine ⟨m, ?_, by simpa using hb⟩
        rw [List.foldl_cons]
        exact greedyFold_mono xs _ m (greedyStep_mono acc c m hm)
      · by_cases htx : acc.any (fun m => m.recorded_transaction_id == c.txId) = true
        · obtain ⟨m, hm, hb⟩ := List.any_eq_true.mp htx
          right
          refine ⟨m, ?_, by simpa using hb⟩
          rw [List.foldl_cons]
          exact greedyFold_mono xs _ m (greedyStep_mono acc c m hm)
        · left
          refine ⟨matchOfCand c, ?_, rfl⟩
          rw [List.foldl_cons]
          apply greedyFold_mono
          unfold greedyStep
          rw [if_pos ⟨hs, hbank, htx⟩]
          exact List.mem_append_right _ (by simp)
    · rcases ih (greedyStep acc x) c htl hs with ⟨m, hm, he⟩ | ⟨m, hm, he⟩
      · exact Or.inl ⟨m, List.foldl_cons _ _ ▸ hm, he⟩
      · exact Or.inr ⟨m, List.foldl_cons _ _ ▸ hm, he⟩

theorem greedyFold_bij (l : List Cand) :
    ∀ acc : List MatchRow, MatchesBijective acc →
      MatchesBijective (l.foldl greedyStep acc) := by
  induction l with
  | nil => intro acc h; exact h
  | cons x xs ih =>
    intro acc h
    rw [List.foldl_cons]
    apply ih
    unfold greedyStep
    by_cases hcond : HIGH_THRESHOLD ≤ x.cScore
        ∧ ¬ acc.any (fun m => m.bank_line_item_id == x.itemId) = true
        ∧ ¬ acc.any (fun m => m.recorded_transaction_id == x.txId) = true
    · rw [if_pos hcond]
      rw [MatchesBijective, List.pairwise_append]
      refine ⟨h, List.pairwise_singleton _ _, ?_⟩
      intro a ha b hb
      rw [List.mem_singleton] at hb
      subst hb
      constructor
      · intro heq
        exact hcond.2.1 (List.any_eq_true.mpr ⟨a, ha, by
          simp only [matchOfCand] at heq
          simp [heq]⟩)
      · intro heq
        exact hcond.2.2 (List.any_eq_true.mpr ⟨a, ha, by
          simp only [matchOfCand] at heq
          simp [heq]⟩)
    · rw [if_neg hcond]
      exact h

theorem greedyAssign_src (l : List Cand) (m : MatchRow) (h : m ∈ greedyAssign l) :
    ∃ c ∈ l, m = matchOfCand c ∧ HIGH_THRESHOLD ≤ c.cScore := by
  rcases greedyFold_src l [] m h with h0 | h'
  · cases h0
  · exact h'

/-- Every Match confirmed by auto-match comes from an admissible candidate
pair of the statement's work list against the free pool, scored at or above
the high threshold. -/
theorem autoAssigned_src (st : EngineState) (stmtId : Nat) (m : MatchRow)
    (h : m ∈ autoAssigned st stmtId) :
    ∃ i ∈ workOf st stmtId, ∃ t ∈ poolOf st,
      admissible i t = true ∧ m = ⟨i.id, t.id, some (score i t)⟩
        ∧ HIGH_THRESHOLD ≤ score i t := by
  obtain ⟨c, hc, rfl, hs⟩ := greedyAssign_src _ m h
  obtain ⟨i, hi, t, ht, ha, rfl⟩ := (mem_autoCands c st stmtId).mp hc
  exact ⟨i, hi, t, ht, ha, rfl, hs⟩

theorem autoAssigned_bij (st : EngineState) (stmtId : Nat) :
    MatchesBijective (autoAssigned st stmtId) :=
  greedyFold_bij _ [] (List.Pairwise.nil)

/-! ## Audit Recorder lemmas -/

theorem record_items (st : EngineState) (e : String) (i : Nat) (a : String) :
    (record st e i a).items = st.items := rfl

theorem record_txs (st : EngineState) (e : String) (i : Nat) (a : String) :
    (record st e i a).txs = st.txs := rfl

theorem record_matchRows (st : EngineState) (e : String) (i : Nat) (a : String) :
    (record st e i a).matchRows = st.matchRows := rfl

theorem record_nextTxId (st : EngineState) (e : String) (i : Nat) (a : String) :
    (record st e i a).nextTxId = st.nextTxId := rfl

theorem record_audit_extends (st : EngineState) (e : String) (i : Nat) (a : String) :
    ∃ pre, (record st e i a).audit = pre ++ st.audit :=
  ⟨[⟨st.nextAuditId, e, i, a⟩], rfl⟩

theorem record_auditInv (st : EngineState) (e : String) (i : Nat) (a : String)
    (h : AuditInv st) : AuditInv (record st e i a) := by
  obtain ⟨hp, hb⟩ := h
  constructor
  · exact List.pairwise_cons.mpr ⟨fun e' he' => hb e' he', hp⟩
  · intro e' he'
    rcases List.mem_cons.mp he' with rfl | h'
    · exact Nat.lt_succ_self _
    · exact Nat.lt_succ_of_lt (hb e' h')

theorem recordMatches_items (l : List MatchRow) :
    ∀ st : EngineState, (recordMatches l st).items = st.items := by
  induction l with
  | nil => intro st; rfl
  | cons x xs ih => intro st; exact ih _

theorem recordMatches_txs (l : List MatchRow) :
    ∀ st : EngineState, (recordMatches l st).txs = st.txs := by
  induction l with
  | nil => intro st; rfl
  | cons x xs ih => intro st; exact ih _

theorem recordMatches_matchRows (l : List MatchRow) :
    ∀ st : EngineState, (recordMatches l st).matchRows = st.matchRows := by
  induction l with
  | nil => intro st; rfl
  | cons x xs ih => intro st; exact ih _

theorem recordMatches_nextTxId (l : List MatchRow) :
    ∀ st : EngineState, (recordMatches l st).nextTxId = st.nextTxId := by
  induction l with
  | nil => intro st; rfl
  | cons x xs ih => intro st; exact ih _

theorem recordMatches_audit_extends (l : List MatchRow) :
    ∀ st : EngineState, ∃ pre, (recordMatches l st).audit = pre ++ st.audit := by
  induction l with
  | nil => intro st; exact ⟨[], rfl⟩
  | cons x xs ih =>
    intro st
    obtain ⟨pre, hpre⟩ := ih (record st "bank_transaction" x.bank_line_item_id "match")
    refine ⟨pre ++ [⟨st.nextAuditId, "bank_transaction", x.bank_line_item_id, "match"⟩], ?_⟩
    rw [recordMatches, List.foldl_cons]
    show (recordMatches xs _).audit = _
    rw [hpre, List.append_assoc]
    rfl

theorem recordMatches_auditInv (l : List MatchRow) :
    ∀ st : EngineState, AuditInv st → AuditInv (recordMatches l st) := by
  induction l with
  | nil => intro st h; exact h
  | cons x xs ih =>
    intro st h
    exact ih _ (record_auditInv _ _ _ _ h)

/-! ## Decomposition of the auto-match pass -/

theorem autoMatchState_items (st : EngineState) (stmtId : Nat) :
    (autoMatchState st stmtId).items
      = st.items.map (applyAutoTo (autoAssigned st stmtId) (autoFreePool st stmtId) stmtId) := by
  unfold autoMatchState
  rw [recordMatches_items]

theorem autoMatchState_matchRows (st : EngineState) (stmtId : Nat) :
    (autoMatchState st stmtId).matchRows = st.matchRows ++ autoAssigned st stmtId := by
  unfold autoMatchState
  rw [recordMatches_matchRows]

theorem autoMatchState_txs (st : EngineState) (stmtId : Nat) :
    (autoMatchState st stmtId).txs = st.txs := by
  unfold autoMatchState
  rw [recordMatches_txs]

theorem autoMatchState_nextTxId (st : EngineState) (stmtId : Nat) :
    (autoMatchState st stmtId).nextTxId = st.nextTxId := by
  unfold autoMatchState
  rw [recordMatches_nextTxId]

theorem applyAutoTo_shape (A : List MatchRow) (P : List RecordedTransaction)
    (sid : Nat) (it : BankLineItem) :
    applyAutoTo A P sid it = it
      ∨ ∃ s lnk cf, applyAutoTo A P sid it = setMatchFields it s lnk cf := by
  unfold applyAutoTo
  split
  · split
    · exact Or.inr ⟨_, _, _, rfl⟩
    · split
      · split
        · exact Or.inr ⟨_, _, _, rfl⟩
        · exact Or.inr ⟨_, _, _, rfl⟩
      · exact Or.inr ⟨_, _, _, rfl⟩
  · exact Or.inl rfl

theorem applyAutoTo_id (A : List MatchRow) (P : List RecordedTransaction)
    (sid : Nat) (it : BankLineItem) : (applyAutoTo A P sid it).id = it.id := by
  rcases applyAutoTo_shape A P sid it with h | ⟨s, lnk, cf, h⟩ <;> rw [h] <;> rfl

theorem applyAutoTo_stmt (A : List MatchRow) (P : List RecordedTransaction)
    (sid : Nat) (it : BankLineItem) :
    (applyAutoTo A P sid it).statement_id = it.statement_id := by
  rcases applyAutoTo_shape A P sid it with h | ⟨s, lnk, cf, h⟩ <;> rw [h] <;> rfl

theorem candsFor_applyAutoTo (A : List MatchRow) (P pool : List RecordedTransaction)
    (sid : Nat) (it : BankLineItem) :
    candsFor (applyAutoTo A P sid it) pool = candsFor it pool := by
  rcases applyAutoTo_shape A P sid it with h | ⟨s, lnk, cf, h⟩ <;> rw [h]
  exact candsFor_setMatchFields it s lnk cf pool

theorem bestCandFor_applyAutoTo (A : List MatchRow) (P pool : List RecordedTransaction)
    (sid : Nat) (it : BankLineItem) :
    bestCandFor (applyAutoTo A P sid it) pool = bestCandFor it pool := by
  unfold bestCandFor
  rw [candsFor_applyAutoTo]

/-! ## Invariant preservation -/

theorem itemHasMatch_eq_false (st : EngineState) (i : Nat)
    (h : ¬ itemHasMatch st i = true) :
    ∀ m ∈ st.matchRows, m.bank_line_item_id ≠ i := by
  intro m hm heq
  apply h
  unfold itemHasMatch
  exact List.any_eq_true.mpr ⟨m, hm, by simp [heq]⟩

theorem txHasMatch_eq_false (st : EngineState) (t : Nat)
    (h : ¬ txHasMatch st t = true) :
    ∀ m ∈ st.matchRows, m.recorded_transaction_id ≠ t := by
  intro m hm heq
  apply h
  unfold txHasMatch
  exact List.any_eq_true.mpr ⟨m, hm, by simp [heq]⟩

theorem mem_workOf (st : EngineState) (sid : Nat) (i : BankLineItem) :
    i ∈ workOf st sid
      ↔ i ∈ st.items ∧ i.statement_id = sid ∧ i.match_status ≠ .matched := by
  unfold workOf
  rw [List.mem_filter]
  simp [and_assoc]

theorem mem_poolOf (st : EngineState) (t : RecordedTransaction) :
    t ∈ poolOf st
      ↔ t ∈ st.txs ∧ ∀ m ∈ st.matchRows, m.recorded_transaction_id ≠ t.id := by
  unfold poolOf txHasMatch
  rw [List.mem_filter]
  simp

theorem map_ids_eq (f : BankLineItem → BankLineItem)
    (hf : ∀ it, (f it).id = it.id) (l : List BankLineItem) :
    (l.map f).map (fun it => it.id) = l.map (fun it => it.id) := by
  rw [List.map_map]
  exact List.map_congr_left (fun it _ => hf it)

/-- `record` only touches the audit fields, so the ledger invariant carries
over definitionally. -/
theorem record_coreInv (st : EngineState) (e : String) (i : Nat) (a : String)
    (h : CoreInv st) : CoreInv (record st e i a) := h

theorem recordMatches_coreInv (l : List MatchRow) (st : EngineState)
    (h : CoreInv st) : CoreInv (recordMatches l st) := by
  unfold CoreInv at h ⊢
  rw [recordMatches_items, recordMatches_matchRows, recordMatches_txs,
    recordMatches_nextTxId]
  exact h

theorem applyAutoTo_of_matched (A : List MatchRow) (P : List RecordedTransaction)
    (sid : Nat) (it : BankLineItem) (h : it.match_status = .matched) :
    applyAutoTo A P sid it = it := by
  unfold applyAutoTo
  rw [if_neg]
  simp [h]

/-- Manual match preserves the full invariant (spec §4.3: the checks refuse a
second active Match for either side). -/
theorem manual_match_inv (st : EngineState) (i t : Nat) (st' : EngineState)
    (hInv : Inv st) (h : manual_match st i t = Except.ok st') : Inv st' := by
  obtain ⟨⟨h1, h2, h3, h4, h5, h6, h7⟩, hA⟩ := hInv
  unfold manual_match at h
  split at h
  · cases h
  next hni =>
  split at h
  · cases h
  next hnt =>
  split at h
  · cases h
  next hnoitem =>
  split at h
  · cases h
  next hnotx =>
  injection h with h
  subst h
  rw [Decidable.not_not] at hni hnt
  have hifree := itemHasMatch_eq_false st i hnoitem
  have htfree := txHasMatch_eq_false st t hnotx
  obtain ⟨tt, htt, httid⟩ : ∃ tt ∈ st.txs, tt.id = t := by
    obtain ⟨tt, htt, hb⟩ := List.any_eq_true.mp hnt
    exact ⟨tt, htt, by simpa using hb⟩
  refine ⟨record_coreInv _ _ _ _ ⟨?_, ?_, ?_, ?_, ?_, ?_, ?_⟩, record_auditInv _ _ _ _ hA⟩
  · exact List.pairwise_cons.mpr
      ⟨fun m hm => ⟨fun he => hifree m hm he.symm, fun he => htfree m hm he.symm⟩, h1⟩
  · intro m hm it' hit' hid
    obtain ⟨it0, hit0, rfl⟩ := List.mem_map.mp hit'
    rcases List.mem_cons.mp hm with rfl | hmold
    · by_cases hid0 : it0.id = i
      · simp [hid0, setMatchFields]
      · rw [if_neg hid0] at hid ⊢
        exact absurd hid hid0
    · by_cases hid0 : it0.id = i
      · rw [if_pos hid0]
        rfl
      · rw [if_neg hid0] at hid ⊢
        exact h2 m hmold it0 hit0 hid
  · rw [map_ids_eq _ (fun it0 => by by_cases hid0 : it0.id = i <;> simp [hid0, setMatchFields])]
    exact h3
  · intro it' hit' c hc
    obtain ⟨it0, hit0, rfl⟩ := List.mem_map.mp hit'
    by_cases hid0 : it0.id = i
    · rw [if_pos hid0] at hc
      cases hc
    · rw [if_neg hid0] at hc
      exact h4 it0 hit0 c hc
  · intro m hm c hc
    rcases List.mem_cons.mp hm with rfl | hmold
    · cases hc
    · exact h5 m hmold c hc
  · exact h6
  · intro m hm
    rcases List.mem_cons.mp hm with rfl | hmold
    · exact httid ▸ h6 tt htt
    · exact h7 m hmold

/-- Unmatch preserves the full invariant (spec §4.3). -/
theorem unmatch_inv (st : EngineState) (i : Nat) (st' : EngineState)
    (hInv : Inv st) (h : unmatch st i = Except.ok st') : Inv st' := by
  obtain ⟨⟨h1, h2, h3, h4, h5, h6, h7⟩, hA⟩ := hInv
  unfold unmatch at h
  split at h
  · cases h
  injection h with h
  subst h
  refine ⟨record_coreInv _ _ _ _ ⟨?_, ?_, ?_, ?_, ?_, ?_, ?_⟩, record_auditInv _ _ _ _ hA⟩
  · exact List.Pairwise.sublist (List.filter_sublist _) h1
  · intro m hm it' hit' hid
    have hm' := List.mem_of_mem_filter hm
    have hmne : m.bank_line_item_id ≠ i := by
      have := List.of_mem_filter hm
      simpa using this
    obtain ⟨it0, hit0, rfl⟩ := List.mem_map.mp hit'
    by_cases hid0 : it0.id = i
    · rw [if_pos hid0] at hid
      exact absurd (hid0 ▸ hid) (by simpa [setMatchFields] using hmne.symm)
    · rw [if_neg hid0] at hid ⊢
      exact h2 m hm' it0 hit0 hid
  · rw [map_ids_eq _ (fun it0 => by by_cases hid0 : it0.id = i <;> simp [hid0, setMatchFields])]
    exact h3
  · intro it' hit' c hc
    obtain ⟨it0, hit0, rfl⟩ := List.mem_map.mp hit'
    by_cases hid0 : it0.id = i
    · rw [if_pos hid0] at hc
      cases hc
    · rw [if_neg hid0] at hc
      exact h4 it0 hit0 c hc
  · intro m hm c hc
    exact h5 m (List.mem_of_mem_filter hm) c hc
  · exact h6
  · intro m hm
    exact h7 m (List.mem_of_mem_filter hm)

/-- One Import Resolver step preserves the full invariant (spec §4.4). -/
theorem importStep_inv (acc : (Nat × Nat) × EngineState) (item : ImportReqItem)
    (hInv : Inv acc.2) : Inv (importStep acc item).2 := by
  obtain ⟨⟨h1, h2, h3, h4, h5, h6, h7⟩, hA⟩ := hInv
  unfold importStep
  split
  · exact ⟨⟨h1, h2, h3, h4, h5, h6, h7⟩, hA⟩
  next hnomatch =>
  have hifree := itemHasMatch_eq_false acc.2 item.bank_transaction_id hnomatch
  refine ⟨record_coreInv _ _ _ _ (record_coreInv _ _ _ _ ?_),
    record_auditInv _ _ _ _ (record_auditInv _ _ _ _ hA)⟩
  unfold CoreInv importCreate
  dsimp only
  refine ⟨?_, ?_, ?_, ?_, ?_, ?_, ?_⟩
  · exact List.pairwise_cons.mpr
      ⟨fun m hm => ⟨fun he => hifree m hm he.symm,
        fun he => absurd (he ▸ h7 m hm) (lt_irrefl _)⟩, h1⟩
  · intro m hm it' hit' hid
    obtain ⟨it0, hit0, rfl⟩ := List.mem_map.mp hit'
    rcases List.mem_cons.mp hm with rfl | hmold
    · by_cases hid0 : it0.id = item.bank_transaction_id
      · simp [hid0, setMatchFields]
      · rw [if_neg hid0] at hid ⊢
        exact absurd hid hid0
    · by_cases hid0 : it0.id = item.bank_transaction_id
      · rw [if_pos hid0]
        rfl
      · rw [if_neg hid0] at hid ⊢
        exact h2 m hmold it0 hit0 hid
  · rw [map_ids_eq _ (fun it0 => by
      by_cases hid0 : it0.id = item.bank_transaction_id <;> simp [hid0, setMatchFields])]
    exact h3
  · intro it' hit' c hc
    obtain ⟨it0, hit0, rfl⟩ := List.mem_map.mp hit'
    by_cases hid0 : it0.id = item.bank_transaction_id
    · rw [if_pos hid0] at hc
      injection hc with hc
      subst hc
      exact ⟨zero_le_one, le_refl 1⟩
    · rw [if_neg hid0] at hc
      exact h4 it0 hit0 c hc
  · intro m hm c hc
    rcases List.mem_cons.mp hm with rfl | hmold
    · injection hc with hc
      subst hc
      exact ⟨zero_le_one, le_refl 1⟩
    · exact h5 m hmold c hc
  · intro tt htt
    rcases List.mem_append.mp htt with hold | hnew
    · exact Nat.lt_succ_of_lt (h6 tt hold)
    · rw [List.mem_singleton.mp hnew]
      exact Nat.lt_succ_self _
  · intro m hm
    rcases List.mem_cons.mp hm with rfl | hmold
    · exact Nat.lt_succ_self _
    · exact Nat.lt_succ_of_lt (h7 m hmold)

theorem importFold_inv (req : List ImportReqItem) :
    ∀ acc : (Nat × Nat) × EngineState, Inv acc.2 →
      Inv (req.foldl importStep acc).2 := by
  induction req with
  | nil => intro acc h; exact h
  | cons x xs ih =>
    intro acc h
    rw [List.foldl_cons]
    exact ih _ (importStep_inv acc x h)

theorem importItems_inv (st : EngineState) (stmtId : Nat)
    (req : List ImportReqItem) (hInv : Inv st) :
    Inv (importItems st stmtId req).2 :=
  importFold_inv req ((0, 0), st) hInv

/-- An auto-match pass preserves the full invariant (spec §4.2: the greedy
pass skips any candidate whose side is taken and only commits scores in
`[HIGH_THRESHOLD, 1]`). -/
theorem autoMatchState_inv (st : EngineState) (sid : Nat) (hInv : Inv st) :
    Inv (autoMatchState st sid) := by
  obtain ⟨⟨h1, h2, h3, h4, h5, h6, h7⟩, hA⟩ := hInv
  unfold autoMatchState
  refine ⟨recordMatches_coreInv _ _ ?_, recordMatches_auditInv _ _ hA⟩
  unfold CoreInv
  dsimp only
  refine ⟨?_, ?_, ?_, ?_, ?_, ?_, ?_⟩
  · rw [MatchesBijective, List.pairwise_append]
    refine ⟨h1, autoAssigned_bij st sid, ?_⟩
    intro a ha b hb
    obtain ⟨i, hi, t, ht, hadm, rfl, hsc⟩ := autoAssigned_src st sid b hb
    obtain ⟨hiMem, hiSid, hiSt⟩ := (mem_workOf st sid i).mp hi
    obtain ⟨htMem, htFree⟩ := (mem_poolOf st t).mp ht
    constructor
    · intro he
      exact hiSt (h2 a ha i hiMem he.symm)
    · intro he
      exact htFree a ha he
  · intro m hm it' hit' hid
    obtain ⟨it0, hit0, rfl⟩ := List.mem_map.mp hit'
    rw [applyAutoTo_id] at hid
    rcases List.mem_append.mp hm with hmold | hmnew
    · have hst : it0.match_status = .matched := h2 m hmold it0 hit0 hid
      rw [applyAutoTo_of_matched _ _ _ _ hst]
      exact hst
    · obtain ⟨i, hi, t, ht, hadm, heq, hsc⟩ := autoAssigned_src st sid m hmnew
      subst heq
      obtain ⟨hiMem, hiSid, hiSt⟩ := (mem_workOf st sid i).mp hi
      have hit0i : it0 = i := List.inj_on_of_nodup_map h3 hit0 hiMem hid
      subst hit0i
      unfold applyAutoTo
      rw [if_pos (by simp [hiSid, hiSt])]
      have hfind : ((autoAssigned st sid).find?
          (fun mm => mm.bank_line_item_id == it0.id)).isSome := by
        rw [List.find?_isSome]
        exact ⟨⟨it0.id, t.id, some (score it0 t)⟩, hmnew, by simp⟩
      obtain ⟨m2, hm2⟩ := Option.isSome_iff_exists.mp hfind
      rw [hm2]
      rfl
  · rw [map_ids_eq _ (applyAutoTo_id _ _ _)]
    exact h3
  · intro it' hit' c hc
    obtain ⟨it0, hit0, rfl⟩ := List.mem_map.mp hit'
    revert hc
    unfold applyAutoTo
    split
    · split
      · next m2 hm2 =>
        intro hc
        rw [setMatchFields_conf] at hc
        have hm2mem := List.mem_of_find?_eq_some hm2
        obtain ⟨i, hi, t, ht, hadm, heq, hsc⟩ := autoAssigned_src st sid m2 hm2mem
        rw [heq] at hc
        injection hc with hc
        subst hc
        exact score_bounds i t
      · split
        · next c2 hc2 =>
          split
          · intro hc
            rw [setMatchFields_conf] at hc
            injection hc with hc
            subst hc
            obtain ⟨t, ht, hadm, rfl⟩ := bestCandFor_mem _ _ _ hc2
            exact score_bounds _ _
          · intro hc
            rw [setMatchFields_conf] at hc
            cases hc
        · intro hc
          rw [setMatchFields_conf] at hc
          cases hc
    · intro hc
      exact h4 it0 hit0 c hc
  · intro m hm c hc
    rcases List.mem_append.mp hm with hmold | hmnew
    · exact h5 m hmold c hc
    · obtain ⟨i, hi, t, ht, hadm, heq, hsc⟩ := autoAssigned_src st sid m hmnew
      rw [heq] at hc
      injection hc with hc
      subst hc
      exact score_bounds i t
  · exact h6
  · intro m hm
    rcases List.mem_append.mp hm with hmold | hmnew
    · exact h7 m hmold
    · obtain ⟨i, hi, t, ht, hadm, heq, hsc⟩ := autoAssigned_src st sid m hmnew
      obtain ⟨htMem, htFree⟩ := (mem_poolOf st t).mp ht
      rw [heq]
      exact h6 t htMem

theorem autoMatch_inv (st : EngineState) (sid : Nat) (hInv : Inv st) :
    Inv (autoMatch st sid).2 :=
  autoMatchState_inv st sid hInv

/-! ## Case characterisation of the per-item auto-match outcome -/

theorem candOf_applyAutoTo (A : List MatchRow) (P : List RecordedTransaction)
    (sid : Nat) (it : BankLineItem) (t : RecordedTransaction) :
    candOf (applyAutoTo A P sid it) t = candOf it t := by
  rcases applyAutoTo_shape A P sid it with h | ⟨s, lnk, cf, h⟩ <;> rw [h]
  exact candOf_setMatchFields it s lnk cf t

theorem admissible_applyAutoTo (A : List MatchRow) (P : List RecordedTransaction)
    (sid : Nat) (it : BankLineItem) (t : RecordedTransaction) :
    admissible (applyAutoTo A P sid it) t = admissible it t := by
  rcases applyAutoTo_shape A P sid it with h | ⟨s, lnk, cf, h⟩ <;> rw [h]
  exact admissible_setMatchFields it s lnk cf t

theorem applyAutoTo_guard_neg (A : List MatchRow) (P : List RecordedTransaction)
    (sid : Nat) (it : BankLineItem)
    (h : ¬ (it.statement_id == sid
        && !(it.match_status == MatchStatus.matched)) = true) :
    applyAutoTo A P sid it = it := by
  unfold applyAutoTo
  rw [if_neg h]

theorem applyAutoTo_found (A : List MatchRow) (P : List RecordedTransaction)
    (sid : Nat) (it : BankLineItem) (m : MatchRow)
    (hg : (it.statement_id == sid
        && !(it.match_status == MatchStatus.matched)) = true)
    (hf : A.find? (fun mm => mm.bank_line_item_id == it.id) = some m) :
    applyAutoTo A P sid it
      = setMatchFields it .matched (some m.recorded_transaction_id) m.confidence := by
  unfold applyAutoTo
  rw [if_pos hg, hf]

theorem applyAutoTo_best_band (A : List MatchRow) (P : List RecordedTransaction)
    (sid : Nat) (it : BankLineItem) (c : Cand)
    (hg : (it.statement_id == sid
        && !(it.match_status == MatchStatus.matched)) = true)
    (hf : A.find? (fun mm => mm.bank_line_item_id == it.id) = none)
    (hb : bestCandFor it P = some c)
    (hband : LOW_THRESHOLD ≤ c.cScore ∧ c.cScore < HIGH_THRESHOLD) :
    applyAutoTo A P sid it
      = setMatchFields it .discrepancy (some c.txId) (some c.cScore) := by
  unfold applyAutoTo
  rw [if_pos hg, hf, hb]
  dsimp only
  rw [if_pos hband]

theorem applyAutoTo_best_noband (A : List MatchRow) (P : List RecordedTransaction)
    (sid : Nat) (it : BankLineItem) (c : Cand)
    (hg : (it.statement_id == sid
        && !(it.match_status == MatchStatus.matched)) = true)
    (hf : A.find? (fun mm => mm.bank_line_item_id == it.id) = none)
    (hb : bestCandFor it P = some c)
    (hband : ¬ (LOW_THRESHOLD ≤ c.cScore ∧ c.cScore < HIGH_THRESHOLD)) :
    applyAutoTo A P sid it = setMatchFields it .unmatched none none := by
  unfold applyAutoTo
  rw [if_pos hg, hf, hb]
  dsimp only
  rw [if_neg hband]

theorem applyAutoTo_best_none (A : List MatchRow) (P : List RecordedTransaction)
    (sid : Nat) (it : BankLineItem)
    (hg : (it.statement_id == sid
        && !(it.match_status == MatchStatus.matched)) = true)
    (hf : A.find? (fun mm => mm.bank_line_item_id == it.id) = none)
    (hb : bestCandFor it P = none) :
    applyAutoTo A P sid it = setMatchFields it .unmatched none none := by
  unfold applyAutoTo
  rw [if_pos hg, hf, hb]

/-- Re-resolving an item a second time, with nothing newly assigned and the
same free pool, is a no-op: the auto-match outcome per item is stable. -/
theorem applyAutoTo_fix (A : List MatchRow) (P : List RecordedTransaction)
    (sid : Nat) (i : BankLineItem) :
    applyAutoTo [] P sid (applyAutoTo A P sid i) = applyAutoTo A P sid i := by
  by_cases hg : (i.statement_id == sid
      && !(i.match_status == MatchStatus.matched)) = true
  · have hg2 : i.statement_id = sid ∧ ¬ i.match_status = MatchStatus.matched := by
      simpa using hg
    have hsid := hg2.1
    cases hfind : A.find? (fun mm => mm.bank_line_item_id == i.id) with
    | some m =>
      rw [applyAutoTo_found A P sid i m hg hfind]
      exact applyAutoTo_guard_neg _ _ _ _ (by simp [setMatchFields])
    | none =>
      cases hbest : bestCandFor i P with
      | some c =>
        by_cases hband : LOW_THRESHOLD ≤ c.cScore ∧ c.cScore < HIGH_THRESHOLD
        · rw [applyAutoTo_best_band A P sid i c hg hfind hbest hband]
          rw [applyAutoTo_best_band [] P sid
            (setMatchFields i .discrepancy (some c.txId) (some c.cScore)) c
            (by simp [setMatchFields, hsid]) rfl
            ((bestCandFor_setMatchFields i _ _ _ P).trans hbest) hband]
          exact setMatchFields_idem i _ _ _
        · rw [applyAutoTo_best_noband A P sid i c hg hfind hbest hband]
          rw [applyAutoTo_best_noband [] P sid
            (setMatchFields i .unmatched none none) c
            (by simp [setMatchFields, hsid]) rfl
            ((bestCandFor_setMatchFields i _ _ _ P).trans hbest) hband]
          exact setMatchFields_idem i _ _ _
      | none =>
        rw [applyAutoTo_best_none A P sid i hg hfind hbest]
        rw [applyAutoTo_best_none [] P sid
          (setMatchFields i .unmatched none none)
          (by simp [setMatchFields, hsid]) rfl
          ((bestCandFor_setMatchFields i _ _ _ P).trans hbest)]
        exact setMatchFields_idem i _ _ _
  · rw [applyAutoTo_guard_neg A P sid i hg]
    exact applyAutoTo_guard_neg [] P sid i hg

/-! ## Idempotence of the auto-match pass (spec §4.2) -/

theorem txHasMatch_autoMatchState (st : EngineState) (sid x : Nat) :
    txHasMatch (autoMatchState st sid) x
      = (txHasMatch st x
          || (autoAssigned st sid).any (fun m => m.recorded_transaction_id == x)) := by
  unfold txHasMatch
  rw [autoMatchState_matchRows, List.any_append]

/-- After a pass, the free pool of the new state is exactly the pool left
free by the pass. -/
theorem poolOf_autoMatchState (st : EngineState) (sid : Nat) :
    poolOf (autoMatchState st sid) = autoFreePool st sid := by
  unfold poolOf autoFreePool poolOf
  rw [autoMatchState_txs, List.filter_filter]
  apply List.filter_congr
  intro t ht
  rw [txHasMatch_autoMatchState]
  simp [Bool.not_or, Bool.and_comm]

/-- Every item of the second pass's work list is the re-resolved image of a
first-pass work item that the greedy pass left unassigned. -/
theorem mem_workOf_autoMatchState (st : EngineState) (sid : Nat) (j : BankLineItem)
    (hj : j ∈ workOf (autoMatchState st sid) sid) :
    ∃ i ∈ workOf st sid,
      (autoAssigned st sid).find? (fun m => m.bank_line_item_id == i.id) = none
        ∧ j = applyAutoTo (autoAssigned st sid) (autoFreePool st sid) sid i := by
  rw [mem_workOf, autoMatchState_items] at hj
  obtain ⟨hmem, hsid, hst⟩ := hj
  obtain ⟨i, hi, rfl⟩ := List.mem_map.mp hmem
  by_cases hg : (i.statement_id == sid
      && !(i.match_status == MatchStatus.matched)) = true
  · cases hfind : (autoAssigned st sid).find?
        (fun mm => mm.bank_line_item_id == i.id) with
    | some m =>
      rw [applyAutoTo_found _ _ _ _ m hg hfind] at hst
      exact absurd (setMatchFields_status i _ _ _) hst
    | none =>
      refine ⟨i, (mem_workOf st sid i).mpr ⟨hi, ?_⟩, hfind, rfl⟩
      simpa using hg
  · rw [applyAutoTo_guard_neg _ _ _ _ hg] at hsid hst
    exact absurd (by simp [hsid, hst]) hg

/-- The key idempotence fact: after one pass, no admissible candidate of the
remaining work items against the remaining pool reaches the high
threshold. -/
theorem autoCands_second_low (st : EngineState) (sid : Nat) (c : Cand)
    (hc : c ∈ autoCands (autoMatchState st sid) sid) :
    ¬ HIGH_THRESHOLD ≤ c.cScore := by
  intro hs
  obtain ⟨j, hj, t, ht, hadm, rfl⟩ := (mem_autoCands c _ sid).mp hc
  obtain ⟨i, hiw, hfind, rfl⟩ := mem_workOf_autoMatchState st sid j hj
  rw [poolOf_autoMatchState] at ht
  have htP := List.mem_filter.mp ht
  obtain ⟨htPool, htFreeB⟩ := htP
  rw [admissible_applyAutoTo] at hadm
  rw [candOf_applyAutoTo] at hs
  have hmem : candOf i t ∈ autoCands st sid :=
    (mem_autoCands _ st sid).mpr ⟨i, hiw, t, htPool, hadm, rfl⟩
  rcases greedyFold_covers (autoCands st sid) [] (candOf i t) hmem hs with
    ⟨m, hm, hbank⟩ | ⟨m, hm, htx⟩
  · have := List.find?_eq_none.mp hfind m hm
    exact this (by simpa [candOf] using hbank)
  · have : ¬ ((autoAssigned st sid).any
        (fun m => m.recorded_transaction_id == t.id)) = true := by
      simpa using htFreeB
    exact this (List.any_eq_true.mpr ⟨m, hm, by simpa [candOf] using htx⟩)

theorem greedy_none_of_low (l : List Cand)
    (h : ∀ c ∈ l, ¬ HIGH_THRESHOLD ≤ c.cScore) :
    ∀ acc : List MatchRow, l.foldl greedyStep acc = acc := by
  induction l with
  | nil => intro acc; rfl
  | cons x xs ih =>
    intro acc
    rw [List.foldl_cons]
    have hx : greedyStep acc x = acc := by
      unfold greedyStep
      rw [if_neg]
      intro hcond
      exact h x (List.mem_cons_self x xs) hcond.1
    rw [hx]
    exact ih (fun c hc => h c (List.mem_cons_of_mem x hc)) acc

/-- The second pass confirms no new Match. -/
theorem autoAssigned_second (st : EngineState) (sid : Nat) :
    autoAssigned (autoMatchState st sid) sid = [] := by
  unfold autoAssigned greedyAssign
  exact greedy_none_of_low _ (autoCands_second_low st sid) []

theorem autoFreePool_second (st : EngineState) (sid : Nat) :
    autoFreePool (autoMatchState st sid) sid = poolOf (autoMatchState st sid) := by
  unfold autoFreePool
  rw [autoAssigned_second]
  simp

/-- Running the auto-match pass a second time with no intervening mutation
leaves the state unchanged. -/
theorem autoMatchState_second (st : EngineState) (sid : Nat) :
    autoMatchState (autoMatchState st sid) sid = autoMatchState st sid := by
  show recordMatches (autoAssigned (autoMatchState st sid) sid)
    { autoMatchState st sid with
      items := (autoMatchState st sid).items.map
        (applyAutoTo (autoAssigned (autoMatchState st sid) sid)
          (autoFreePool (autoMatchState st sid) sid) sid)
      matchRows := (autoMatchState st sid).matchRows
        ++ autoAssigned (autoMatchState st sid) sid }
    = autoMatchState st sid
  rw [autoAssigned_second, autoFreePool_second, poolOf_autoMatchState,
    List.append_nil]
  show ({ autoMatchState st sid with
      items := (autoMatchState st sid).items.map
        (applyAutoTo [] (autoFreePool st sid) sid)
      matchRows := (autoMatchState st sid).matchRows } : EngineState)
    = autoMatchState st sid
  have hfix : ∀ i ∈ st.items,
      (applyAutoTo [] (autoFreePool st sid) sid
        ∘ applyAutoTo (autoAssigned st sid) (autoFreePool st sid) sid) i
        = applyAutoTo (autoAssigned st sid) (autoFreePool st sid) sid i :=
    fun i _ => applyAutoTo_fix (autoAssigned st sid) (autoFreePool st sid) sid i
  rw [autoMatchState_items st sid, List.map_map, List.map_congr_left hfix,
    ← autoMatchState_items st sid]

/-- C2: auto-match is idempotent — invoking it twice in succession with no
intervening mutation yields an identical state (hence identical Match sets
and identical status counts), and the second invocation returns
`matched = 0`. -/
theorem c2_auto_match_idempotent :
    ∀ (st : EngineState) (stmtId : Nat),
      autoMatch (autoMatch st stmtId).2 stmtId = (0, (autoMatch st stmtId).2)
        ∧ (autoMatch (autoMatch st stmtId).2 stmtId).2.matchRows
            = (autoMatch st stmtId).2.matchRows
        ∧ statusOf (autoMatch (autoMatch st stmtId).2 stmtId).2 stmtId
            = statusOf (autoMatch st stmtId).2 stmtId := by
  intro st sid
  have hmain : autoMatch (autoMatch st sid).2 sid = (0, (autoMatch st sid).2) := by
    show autoMatch (autoMatchState st sid) sid = (0, autoMatchState st sid)
    unfold autoMatch
    rw [autoAssigned_second, autoMatchState_second]
    rfl
  refine ⟨hmain, ?_, ?_⟩
  · rw [hmain]
  · rw [hmain]

/-! ## Audit-extension lemmas (every operation only prepends entries) -/

theorem manual_match_audit (st : EngineState) (i t : Nat) (st' : EngineState)
    (h : manual_match st i t = Except.ok st') :
    ∃ pre, st'.audit = pre ++ st.audit := by
  unfold manual_match at h
  split at h
  · cases h
  split at h
  · cases h
  split at h
  · cases h
  split at h
  · cases h
  injection h with h
  subst h
  exact ⟨[⟨st.nextAuditId, "bank_transaction", i, "match"⟩], rfl⟩

theorem unmatch_audit (st : EngineState) (i : Nat) (st' : EngineState)
    (h : unmatch st i = Except.ok st') :
    ∃ pre, st'.audit = pre ++ st.audit := by
  unfold unmatch at h
  split at h
  · cases h
  injection h with h
  subst h
  exact ⟨[⟨st.nextAuditId, "bank_transaction", i, "unmatch"⟩], rfl⟩

theorem importStep_audit (acc : (Nat × Nat) × EngineState) (item : ImportReqItem) :
    ∃ p, (importStep acc item).2.audit = p ++ acc.2.audit := by
  unfold importStep
  split
  · exact ⟨[], rfl⟩
  · exact ⟨[_, _], rfl⟩

theorem importFold_audit (req : List ImportReqItem) :
    ∀ acc : (Nat × Nat) × EngineState,
      ∃ p, (req.foldl importStep acc).2.audit = p ++ acc.2.audit := by
  induction req with
  | nil => intro acc; exact ⟨[], rfl⟩
  | cons x xs ih =>
    intro acc
    obtain ⟨p1, hp1⟩ := importStep_audit acc x
    obtain ⟨p2, hp2⟩ := ih (importStep acc x)
    rw [List.foldl_cons]
    exact ⟨p2 ++ p1, by rw [hp2, hp1, List.append_assoc]⟩

/-! ## Claim theorems: engine invariants -/

/-- C1: at every point in time the set of active Matches forms a partial
bijection — no bank line item and no recorded transaction appears in two
active Matches — and none of auto-match, manual match, unmatch or import
creates a second active Match for either side. -/
theorem c1_active_matches_partial_bijection :
    ∀ st : EngineState, Inv st →
      (∀ stmtId, MatchesBijective (autoMatch st stmtId).2.matchRows)
        ∧ (∀ i t st', manual_match st i t = Except.ok st' →
            MatchesBijective st'.matchRows)
        ∧ (∀ i st', unmatch st i = Except.ok st' → MatchesBijective st'.matchRows)
        ∧ (∀ stmtId req, MatchesBijective (importItems st stmtId req).2.matchRows) :=
  fun st hInv =>
    ⟨fun stmtId => (autoMatch_inv st stmtId hInv).1.1,
     fun i t st' h => (manual_match_inv st i t st' hInv h).1.1,
     fun i st' h => (unmatch_inv st i st' hInv h).1.1,
     fun stmtId req => (importItems_inv st stmtId req hInv).1.1⟩

/-- C1 witness: on the demo state, auto-match and a successful manual match
both leave the Match Ledger a partial bijection. -/
theorem c1_partial_bijection_witness :
    MatchesBijective (autoMatch demoState 1).2.matchRows
      ∧ MatchesBijective demoMatched.matchRows :=
  ⟨(c1_active_matches_partial_bijection demoState (by decide)).1 1,
   (c1_active_matches_partial_bijection demoState (by decide)).2.1 10 1 demoMatched
     (by decide)⟩

/-- C6: the match status of a bank line item is always one of exactly
`unmatched`, `matched`, `discrepancy`; candidate scores always lie in `[0,1]`;
and every confidence stored by any engine operation lies in `[0,1]`. -/
theorem c6_status_values_and_confidence_range :
    (∀ s : MatchStatus, s = .unmatched ∨ s = .matched ∨ s = .discrepancy)
      ∧ (∀ (it : BankLineItem) (t : RecordedTransaction),
          0 ≤ score it t ∧ score it t ≤ 1)
      ∧ (∀ st : EngineState, Inv st →
          (∀ stmtId, ∀ it ∈ (autoMatch st stmtId).2.items, ∀ c : ℚ,
              it.match_confidence = some c → 0 ≤ c ∧ c ≤ 1)
            ∧ (∀ i t st', manual_match st i t = Except.ok st' →
                ∀ it ∈ st'.items, ∀ c : ℚ,
                  it.match_confidence = some c → 0 ≤ c ∧ c ≤ 1)
            ∧ (∀ i st', unmatch st i = Except.ok st' →
                ∀ it ∈ st'.items, ∀ c : ℚ,
                  it.match_confidence = some c → 0 ≤ c ∧ c ≤ 1)
            ∧ (∀ stmtId req, ∀ it ∈ (importItems st stmtId req).2.items, ∀ c : ℚ,
                it.match_confidence = some c → 0 ≤ c ∧ c ≤ 1)) := by
  refine ⟨fun s => by cases s <;> simp, score_bounds, fun st hInv => ⟨?_, ?_, ?_, ?_⟩⟩
  · intro stmtId it hit c hc
    exact (autoMatch_inv st stmtId hInv).1.2.2.2.1 it hit c hc
  · intro i t st' h it hit c hc
    exact (manual_match_inv st i t st' hInv h).1.2.2.2.1 it hit c hc
  · intro i st' h it hit c hc
    exact (unmatch_inv st i st' hInv h).1.2.2.2.1 it hit c hc
  · intro stmtId req it hit c hc
    exact (importItems_inv st stmtId req hInv).1.2.2.2.1 it hit c hc

/-- C6 witness: the confidence `1.0` stored for the line item imported from
the demo state lies in `[0,1]`. -/
theorem c6_confidence_witness : 0 ≤ (1 : ℚ) ∧ (1 : ℚ) ≤ 1 :=
  (c6_status_values_and_confidence_range.2.2 demoState (by decide)).2.2.2 1
    demoImportReq ⟨11, 1, 50, "", 7, .matched, some 3, some 1⟩ (by decide) 1 (by decide)

/-- C7: the only exposed audit operation of the client is the read-only query
filtered by entity type, entity id and a result-size limit; every engine
operation only prepends audit entries, leaving all prior entries unchanged;
and the query returns a newest-first slice of the log bounded by the limit. -/
theorem c7_audit_append_only_and_query :
    (∀ op : ClientOp, opGroup op = ApiGroup.auditLog ↔ op = ClientOp.getAuditLog)
      ∧ opMethod ClientOp.getAuditLog = some HttpMethod.get
      ∧ (∀ st : EngineState,
          (∀ stmtId, ∃ pre, (autoMatch st stmtId).2.audit = pre ++ st.audit)
            ∧ (∀ i t st', manual_match st i t = Except.ok st' →
                ∃ pre, st'.audit = pre ++ st.audit)
            ∧ (∀ i st', unmatch st i = Except.ok st' →
                ∃ pre, st'.audit = pre ++ st.audit)
            ∧ (∀ stmtId req,
                ∃ pre, (importItems st stmtId req).2.audit = pre ++ st.audit))
      ∧ (∀ st : EngineState, Inv st →
          ∀ (etype : Option String) (eid : Option Nat) (limit : Nat),
            (queryAudit st etype eid limit).Sublist st.audit
              ∧ (queryAudit st etype eid limit).Pairwise (fun a b => b.id < a.id)
              ∧ (queryAudit st etype eid limit).length ≤ limit) := by
  refine ⟨fun op => by cases op <;> decide, rfl, fun st => ⟨?_, ?_, ?_, ?_⟩,
    fun st hInv etype eid limit => ⟨?_, ?_, ?_⟩⟩
  · intro stmtId
    exact recordMatches_audit_extends _ _
  · exact manual_match_audit st
  · exact unmatch_audit st
  · intro stmtId req
    exact importFold_audit req ((0, 0), st)
  · exact (List.take_sublist _ _).trans (List.filter_sublist _)
  · exact List.Pairwise.sublist
      ((List.take_sublist _ _).trans (List.filter_sublist _)) hInv.2.1
  · exact List.length_take_le _ _

/-- C7 witness: a successful manual match on the demo state only prepends to
the audit log, and the audit query on the result is newest-first. -/
theorem c7_audit_witness :
    (∃ pre, demoMatched.audit = pre ++ demoState.audit)
      ∧ (queryAudit demoMatched none none 5).Pairwise (fun a b => b.id < a.id) :=
  ⟨(c7_audit_append_only_and_query.2.2.1 demoState).2.1 10 1 demoMatched (by decide),
   (c7_audit_append_only_and_query.2.2.2 demoMatched (by decide) none none 5).2.1⟩

/-! ## Claim theorems: client interface shapes -/

/-- C5: the reconciliation interface exposed to the presentation layer has
exactly the declared response shapes — auto-match returns `{matched}`, manual
match and unmatch return `{ok}`, and the status query returns
`{statement_id, total, matched, unmatched, discrepancies}`. -/
theorem c5_reconciliation_interface_shapes :
    respShape .autoMatchOp = some .matchedCount
      ∧ shapeFields .matchedCount = some ["matched"]
      ∧ respShape .manualMatchOp = some .okFlag
      ∧ respShape .unmatchOp = some .okFlag
      ∧ shapeFields .okFlag = some ["ok"]
      ∧ respShape .getReconciliationStatus = some .reconciliationStatus
      ∧ shapeFields .reconciliationStatus
          = some ["statement_id", "total", "matched", "unmatched", "discrepancies"] := by
  decide

/-- C3 (divergence witness): the client declares the statement-import
response as a transaction list (`api.post<Transaction[]>`), which is not the
`StatementImportResult` shape `{saved, reconciled, statement_id}` that
types.ts declares for this operation and that no client call ever uses; the
spec-modelled Import Resolver does report `{saved, reconciled, statement_id}`
with `saved + reconciled` covering every submitted item. -/
theorem c3_import_response_shape_divergence :
    respShape .importStatementTransactions = some .transactionList
      ∧ RespShape.transactionList ≠ RespShape.importResult
      ∧ (∀ op : ClientOp, respShape op ≠ some .importResult)
      ∧ shapeFields .importResult = some ["saved", "reconciled", "statement_id"]
      ∧ (∀ st stmtId req, (importItems st stmtId req).1.statement_id = stmtId
          ∧ (importItems st stmtId req).1.saved
              + (importItems st stmtId req).1.reconciled = req.length) := by
  refine ⟨by decide, by decide, fun op => by cases op <;> decide, by decide,
    fun st stmtId req => ⟨rfl, importItems_counts st stmtId req⟩⟩

/-! ## Claim theorems: statement-import flow -/

/-- C9: every `StatementImportItem` built by the statement-import flow
carries the constant currency `"USD"`, regardless of the row's data. -/
theorem c9_import_currency_always_usd :
    (∀ r : StmtRow, (mkStatementImportItem r).currency = "USD")
      ∧ ∀ (rows : List StmtRow) (items : List StatementImportItem),
          handleStmtSave rows = some items → ∀ it ∈ items, it.currency = "USD" := by
  constructor
  · intro r; rfl
  · intro rows items h it hit
    simp only [handleStmtSave] at h
    split at h
    · exact absurd h (by simp)
    · split at h
      · exact absurd h (by simp)
      · injection h with h
        subst h
        obtain ⟨r, hr, rfl⟩ := List.mem_map.mp hit
        rfl

/-- C9 witness: on the concrete demo row the saved item's currency is
`"USD"`. -/
theorem c9_import_currency_witness :
    (mkStatementImportItem exRow).currency = "USD" :=
  c9_import_currency_always_usd.2 [exRow] [mkStatementImportItem exRow]
    (by decide) (mkStatementImportItem exRow) (by decide)

/-- C10: a freshly loaded statement row suggests type `income` exactly for
`credit` rows and `expense` for `debit` rows, and its initial description is
the parsed bank description. -/
theorem c10_initial_row_suggestions :
    ∀ (k : Nat) (tx : BankTransaction),
      ((initStmtRow k tx)._type = TransactionType.income
          ↔ tx.transaction_type = .credit)
        ∧ ((initStmtRow k tx)._type = TransactionType.expense
            ↔ tx.transaction_type = .debit)
        ∧ (initStmtRow k tx)._description = tx.description := by
  intro k tx
  cases h : tx.transaction_type <;> simp [initStmtRow, h]

/-- C4 counterexample: the statement-import flow accepts a row whose vendor
field is empty — the submitted `StatementImportItem` has no vendor and is
sent anyway, so `vendor` is not a required field. -/
theorem c4_vendor_not_required_counterexample :
    exRow._vendor = ""
      ∧ handleStmtSave [exRow] = some [mkStatementImportItem exRow]
      ∧ (mkStatementImportItem exRow).vendor = none := by
  decide

/-- C4 (amended): on a `StatementImportItem` the fields category, type,
description, date, amount and currency are required while vendor is
optional; a selected row with no category causes the save to be rejected
before any import request is sent, and every submitted item carries a
non-empty category. -/
theorem c4_required_fields_amended :
    ∀ rows : List StmtRow,
      ((rows.filter (fun r => r._selected)).any (fun r => r._category = "") = true →
          handleStmtSave rows = none)
        ∧ (∀ items, handleStmtSave rows = some items →
            ∀ it ∈ items, it.category ≠ "") := by
  intro rows
  constructor
  · intro h
    simp [handleStmtSave, h]
  · intro items h it hit
    simp only [handleStmtSave] at h
    split at h
    · exact absurd h (by simp)
    · split at h
      · exact absurd h (by simp)
      · next hAny =>
        injection h with h
        subst h
        obtain ⟨r, hr, rfl⟩ := List.mem_map.mp hit
        intro hcat
        apply hAny
        refine List.any_eq_true.mpr ⟨r, hr, ?_⟩
        simpa [mkStatementImportItem] using hcat

/-- C4 witness: a selected demo row without a category is rejected, and the
item built from the categorised demo row has a non-empty category. -/
theorem c4_required_fields_witness :
    handleStmtSave [exRowNoCategory] = none
      ∧ (mkStatementImportItem exRow).category ≠ "" :=
  ⟨(c4_required_fields_amended [exRowNoCategory]).1 (by decide),
   (c4_required_fields_amended [exRow]).2 [mkStatementImportItem exRow]
     (by decide) (mkStatementImportItem exRow) (by decide)⟩

/-! ## Claim theorems: upload error classification -/

/-- C8 counterexample: when the server's 503 `detail` equals the generic
message, the 503 report is byte-for-byte identical to the generic failure
report, so the provider-unavailable case is not always distinct from the
generic case. -/
theorem c8_503_indistinct_counterexample :
    classifyUploadError (some 503) (some "Failed to process file. Please try again.")
      = classifyUploadError (some 500) none := by
  decide

/-- C8 (amended): HTTP 429 is always surfaced as a rate-limit error (flag
set, retry offered while the file is retained), distinct from both the 503
and the generic reports; HTTP 503 is surfaced as a provider-unavailable
error that is not rate-limited and is distinct from the generic report
whenever its displayed detail differs from the generic message (in
particular always when the server supplies no detail). -/
theorem c8_error_kinds_amended :
    ∀ (d d2 : Option String) (s : Option Nat), s ≠ some 429 → s ≠ some 503 →
      (classifyUploadError (some 429) d).rateLimited = true
        ∧ retryOffered (classifyUploadError (some 429) d) true = true
        ∧ (classifyUploadError (some 503) d).rateLimited = false
        ∧ classifyUploadError s d2 = ⟨genericUploadMsg, false⟩
        ∧ retryOffered (classifyUploadError s d2) true = false
        ∧ classifyUploadError (some 429) d ≠ classifyUploadError s d2
        ∧ classifyUploadError (some 429) d ≠ classifyUploadError (some 503) d2
        ∧ (d.getD providerUnavailableMsg ≠ genericUploadMsg →
            classifyUploadError (some 503) d ≠ classifyUploadError s d2) := by
  intro d d2 s h1 h2
  have hgen : classifyUploadError s d2 = ⟨genericUploadMsg, false⟩ := by
    simp [classifyUploadError, h1, h2]
  have h429 : classifyUploadError (some 429) d = ⟨d.getD rateLimitDefaultMsg, true⟩ := by
    simp [classifyUploadError]
  have h503 : classifyUploadError (some 503) d = ⟨d.getD providerUnavailableMsg, false⟩ := by
    simp [classifyUploadError]
  have h503b : classifyUploadError (some 503) d2
      = ⟨d2.getD providerUnavailableMsg, false⟩ := by
    simp [classifyUploadError]
  refine ⟨by rw [h429], by rw [h429]; rfl, by rw [h503], hgen, by rw [hgen]; rfl,
    ?_, ?_, ?_⟩
  · rw [h429, hgen]
    intro heq
    have hb := congrArg UploadError.rateLimited heq
    simp at hb
  · rw [h429, h503b]
    intro heq
    have hb := congrArg UploadError.rateLimited heq
    simp at hb
  · intro hmsg
    rw [h503, hgen]
    intro heq
    exact hmsg (congrArg UploadError.message heq)

/-- C8 witness: at status 500 with no detail, the 429 report is rate-limited
and the 503 report differs from the generic report. -/
theorem c8_error_kinds_witness :
    (classifyUploadError (some 429) none).rateLimited = true
      ∧ classifyUploadError (some 503) none ≠ classifyUploadError (some 500) none :=
  ⟨(c8_error_kinds_amended none none (some 500) (by decide) (by decide)).1,
   (c8_error_kinds_amended none none (some 500) (by decide) (by decide)).2.2.2.2.2.2.2
     (by decide)⟩

end AuditApp
